import Mathlib

/-!
Verification of the Document Processing Pipeline Engine
(`app/processing/pipeline.py`, `app/processing/payloads.py`,
`app/processing/decorators.py`, `app/processing/processors/...`,
`app/core/pipeline_config.py`).

The Python code is shallowly embedded: pydantic models become Lean
structures (construction of a model with missing required fields is a
fallible operation returning `Except`), Python dictionaries become
association lists with first-match lookup and in-place-replace insertion
(Python dict keys are unique, so this is faithful), and dynamically typed
dictionary values become the inductive type `SRVal`.  External libraries
(pdf rendering, OpenCV, redis, the wall clock) are parameters of the
embedded functions.
-/

namespace DocPipe

/-- `ProcessorResult.status` literal: `Literal["success", "failure", "skipped"]`. -/
inductive Status where
  | success
  | failure
  | skipped
deriving DecidableEq, Repr

def Status.toStr : Status → String
  | .success => "success"
  | .failure => "failure"
  | .skipped => "skipped"

/-- `JobStatus` enum from `app/core/schemas/enums.py`. -/
inductive JobStatus where
  | in_progress
  | success
  | failure
  | failed
deriving DecidableEq, Repr

mutual

/-- A dynamically-typed Python value as it occurs inside `structured_results`,
`metadata` and `results` dictionaries.  `vnone` is Python `None`; a payload
object stored inside `structured_results` (the fan-out contract
`document_payloads`) is `vpayload`. -/
inductive SRVal where
  | vnone : SRVal
  | vint : Int → SRVal
  | vstr : String → SRVal
  | vlist : List SRVal → SRVal
  | vdict : List (String × SRVal) → SRVal
  | vpayload : DocumentPayload → SRVal

/-- `DocumentPayload` from `app/processing/payloads.py`.  Field order as in the
source: `file_content`, `file_name`, `job_id` (required), then
`document_id`, `parent_document_id`, `page_number`, `image_data` (optional,
default `None`) and `results` (default `[]`, a list of dumped result dicts). -/
inductive DocumentPayload where
  | mk : String → String → String → Option String → Option String →
      Option Int → Option String → List SRVal → DocumentPayload

end

namespace DocumentPayload

def file_content : DocumentPayload → String
  | .mk v _ _ _ _ _ _ _ => v

def file_name : DocumentPayload → String
  | .mk _ v _ _ _ _ _ _ => v

def job_id : DocumentPayload → String
  | .mk _ _ v _ _ _ _ _ => v

def document_id : DocumentPayload → Option String
  | .mk _ _ _ v _ _ _ _ => v

def parent_document_id : DocumentPayload → Option String
  | .mk _ _ _ _ v _ _ _ => v

def page_number : DocumentPayload → Option Int
  | .mk _ _ _ _ _ v _ _ => v

def image_data : DocumentPayload → Option String
  | .mk _ _ _ _ _ _ v _ => v

def results : DocumentPayload → List SRVal
  | .mk _ _ _ _ _ _ _ v => v

end DocumentPayload

/-- Python truthiness of an embedded value (`if value:`). -/
def SRVal.truthy : SRVal → Bool
  | .vnone => false
  | .vint n => n != 0
  | .vstr s => s != ""
  | .vlist l => !l.isEmpty
  | .vdict d => !d.isEmpty
  | .vpayload _ => true

/-- Generic association-list lookup (Python `d.get(k)` as `Option`). -/
def alistGet? {κ α : Type} [DecidableEq κ] (d : List (κ × α)) (k : κ) :
    Option α :=
  (d.find? (fun p => p.1 = k)).map Prod.snd

/-- Generic association-list assignment (Python `d[k] = v` on a dict
modelled as an association list with unique keys: replace in place, or
append when absent, preserving insertion order). -/
def alistSet {κ α : Type} [DecidableEq κ] (d : List (κ × α)) (k : κ)
    (v : α) : List (κ × α) :=
  match d with
  | [] => [(k, v)]
  | (k₁, v₁) :: rest =>
      if k₁ = k then (k, v) :: rest else (k₁, v₁) :: alistSet rest k v

/-- Python `d.get(k)`: the stored value, or `None` when the key is absent. -/
def dget (d : List (String × SRVal)) (k : String) : SRVal :=
  (alistGet? d k).getD SRVal.vnone

/-- Python `d[k] = v`. -/
def dset (d : List (String × SRVal)) (k : String) (v : SRVal) :
    List (String × SRVal) :=
  alistSet d k v

/-- Python `k in d`. -/
def dmem (d : List (String × SRVal)) (k : String) : Bool :=
  (alistGet? d k).isSome

/-- `ProcessorResult` from `app/processing/payloads.py`.  `structured_results`
is `Optional[Dict[str, Any]]` (default `None`), `metadata` defaults to `{}`. -/
structure ProcessorResult where
  processor_name : String
  status : Status
  output : Option String := none
  structured_results : Option (List (String × SRVal)) := none
  error_message : Option String := none
  metadata : List (String × SRVal) := []

def optStrVal : Option String → SRVal
  | some s => .vstr s
  | none => .vnone

/-- `res.dict()`: the dictionary dump of a result, as appended to a payload's
`results` history by the executors. -/
def dumpResult (r : ProcessorResult) : SRVal :=
  .vdict
    [("processor_name", .vstr r.processor_name),
     ("status", .vstr r.status.toStr),
     ("output", optStrVal r.output),
     ("structured_results",
        match r.structured_results with
        | some d => .vdict d
        | none => .vnone),
     ("error_message", optStrVal r.error_message),
     ("metadata", .vdict r.metadata)]

/-- Pydantic construction of a `DocumentPayload`, as invoked with keyword
arguments by the executors (`pipeline.py` lines 207-216 and 340-347): every
argument is optional at the call site, and construction fails with a
`ValidationError` when a required field (`file_content`, `file_name`,
`job_id`) is missing, exactly as pydantic raises on a missing required field. -/
def DocumentPayload.make (file_content : Option String)
    (file_name : Option String) (job_id : Option String)
    (document_id : Option String := none)
    (parent_document_id : Option String := none)
    (page_number : Option Int := none)
    (image_data : Option String := none)
    (results : List SRVal := []) : Except String DocumentPayload :=
  match file_content, file_name, job_id with
  | some fc, some fn, some jid =>
      .ok (.mk fc fn jid document_id parent_document_id page_number
        image_data results)
  | _, _, _ =>
      .error "ValidationError: field required for DocumentPayload"

/-! ## Result aggregation (`ProcessingPipeline._aggregate_results`) -/

/-- Python `s.replace(pat, repl)` (non-overlapping, left to right), written
as structural recursion with a character-count fuel so that it computes by
kernel reduction; the scan consumes at least one character per step, so
`s.length` fuel is exact.  An empty pattern is treated as no-op (the code
only ever replaces the non-empty `"_processor"`). -/
def pyReplaceGo (pat repl : List Char) : Nat → List Char → List Char
  | _, [] => []
  | 0, s => s
  | fuel + 1, c :: rest =>
      if pat.isPrefixOf (c :: rest) && !pat.isEmpty then
        repl ++ pyReplaceGo pat repl fuel ((c :: rest).drop pat.length)
      else
        c :: pyReplaceGo pat repl fuel rest

def pyReplace (s pat repl : String) : String :=
  ⟨pyReplaceGo pat.data repl.data s.data.length s.data⟩

/-- Truthiness of `result.structured_results` (`if result.structured_results:`
on an `Optional[Dict]`): present and non-empty. -/
def structuredTruthy (r : ProcessorResult) : Bool :=
  match r.structured_results with
  | some d => !d.isEmpty
  | none => false

/-- The page number stored in `result.metadata`, read by
`result.metadata.get("page_number")` followed by an `is not None` test.
Every write of a `page_number` into result metadata in the code base is an
`Optional[int]` (`ocr_processor.py` line 80), so the integer projection is
exact on reachable states. -/
def metaPageNumber (r : ProcessorResult) : Option Int :=
  match dget r.metadata "page_number" with
  | .vint n => some n
  | _ => none

/-- A page dictionary: `{"page_number": n, "<name>_result": {...}, ...}`. -/
abbrev PageDict := List (String × SRVal)

def pmGet (m : List (Int × PageDict)) (k : Int) : Option PageDict :=
  alistGet? m k

/-- Apply `f` to the page dict stored at key `k` (which is present). -/
def pmModify (m : List (Int × PageDict)) (k : Int) (f : PageDict → PageDict) :
    List (Int × PageDict) :=
  m.map (fun p => if p.1 = k then (p.1, f p.2) else p)

/-- The aggregated output dictionary built by `_aggregate_results`:
`{"document_id": ..., "status": ..., ("error_message": ...,) "pages": [...],
"document_level_results": {...}}`. -/
structure AggregatedOutput where
  document_id : String
  status : String
  error_message : Option String := none
  pages : List PageDict
  document_level_results : List (String × SRVal)

/-- Loop state of `_aggregate_results`: the mutable fields of
`aggregated_output` plus `pages_map`. -/
structure AggState where
  status : String
  error_message : Option String
  pages_map : List (Int × PageDict)
  document_level_results : List (String × SRVal)

/-- One iteration of the `for result in all_results` loop of
`_aggregate_results` (`pipeline.py` lines 119-143). -/
def aggStep (st : AggState) (result : ProcessorResult) : AggState :=
  -- check for the special orchestrator failure message
  let st :=
    if result.processor_name = "pipeline_orchestrator" ∧
        result.status = .failure then
      { st with status := "failure", error_message := result.error_message }
    else st
  if result.status ≠ .success then
    st  -- skip failed steps in aggregation
  else
    let processor_name := pyReplace result.processor_name "_processor" ""
    match metaPageNumber result with
    | some page_num =>
        let st :=
          if (pmGet st.pages_map page_num).isNone then
            { st with pages_map :=
                st.pages_map ++ [(page_num, [("page_number", .vint page_num)])] }
          else st
        if structuredTruthy result then
          let assign : PageDict → PageDict := fun d =>
            dset d (processor_name ++ "_result")
              (.vdict (result.structured_results.getD []))
          { st with pages_map := pmModify st.pages_map page_num assign }
        else st
    | none =>
        if structuredTruthy result then
          let dlr := dset st.document_level_results
            (processor_name ++ "_result")
            (.vdict (result.structured_results.getD []))
          { st with document_level_results := dlr }
        else st

/-- `ProcessingPipeline._aggregate_results` (`pipeline.py` lines 98-151).
The final `sorted(pages_map.values(), key=lambda p: p["page_number"])` is a
stable sort of the page dicts by their `page_number` entry; each dict's
`page_number` entry equals its `pages_map` key by construction (the key
`"page_number"` is written once at creation and every later write uses a key
ending in `"_result"`), so it is realised as a stable insertion sort of the
association list by key. -/
def aggregate_results (all_results : List ProcessorResult)
    (parent_document_id : String) : AggregatedOutput :=
  let st := all_results.foldl aggStep
    { status := "success", error_message := none, pages_map := [],
      document_level_results := [] }
  { document_id := parent_document_id,
    status := st.status,
    error_message := st.error_message,
    pages := (List.insertionSort (fun a b => a.1 ≤ b.1) st.pages_map).map
      Prod.snd,
    document_level_results := st.document_level_results }

/-! ## Pipeline configuration (`pipeline.py` lines 17-34,
`core/pipeline_config.py` lines 63-76) -/

/-- One entry of a linear pipeline list: `{"name": ..., "params": {...}}`. -/
structure LinearStep where
  name : String
  params : List (String × SRVal) := []

/-- One node of a DAG pipeline: `{"id": ..., "processor": ..., "params": ...,
"dependencies": [...]}`. -/
structure DagNode where
  id : String
  processor : String
  params : List (String × SRVal) := []
  dependencies : List String := []

/-- `pipeline: Union[List[Dict[str, Any]], Dict[str, Any]]` — either the
linear step list or the `{"nodes": [...]}` dictionary. -/
inductive PipelineSpec where
  | linear : List LinearStep → PipelineSpec
  | dag : List DagNode → PipelineSpec

/-- The pydantic `PipelineConfig` model of `pipeline.py` (lines 25-34). -/
structure PipelineConfig where
  name : String
  description : String
  execution_mode : String
  pipeline : PipelineSpec
  max_concurrency : Int

/-- Pydantic validation of `PipelineConfig`: `max_concurrency` is
`Field(5, gt=0)` — default 5, rejected unless strictly positive.  All other
fields carry no constraint beyond their type. -/
def PipelineConfig.validateModel (name description execution_mode : String)
    (pipeline : PipelineSpec) (max_concurrency : Option Int) :
    Except String PipelineConfig :=
  let mc := max_concurrency.getD 5
  if mc > 0 then
    .ok ⟨name, description, execution_mode, pipeline, mc⟩
  else
    .error "ValidationError: max_concurrency must be greater than 0"

/-- `PipelineConfig._validate_config` from `core/pipeline_config.py`
(lines 63-76), applied to a raw configuration file.  The required keys are
modelled as optional inputs; `execution_mode` must be `"simple"` or
`"dag"`. -/
def validate_config_file (name description execution_mode : Option String)
    (pipeline : Option PipelineSpec) : Bool :=
  name.isSome && description.isSome && execution_mode.isSome &&
    pipeline.isSome &&
    (execution_mode = some "simple" || execution_mode = some "dag")

/-! ## Execution environment

`_execute_step` (`pipeline.py` lines 227-255) awaits the wrapped processor
under the semaphore inside a `try/except` that converts any escaping
exception into a failure `ProcessorResult`; its outcome is therefore always
a `ProcessorResult` and is modelled by the total oracle `exec`.
`factory.create_processor` (and the processor constructor's
`validate_config`) may raise — that exception is not caught by the
executors and is modelled by the fallible oracle `create`.  `uuid.uuid4()`
is modelled by the supplies `freshDocId` and `fresh`. -/

structure PipelineEnv where
  create : String → List (String × SRVal) → Except String Unit
  exec : String → List (String × SRVal) → DocumentPayload → ProcessorResult
  freshDocId : String
  fresh : Nat → String

/-! ## Linear executor (`ProcessingPipeline._run_linear`, lines 153-225) -/

/-- Key of `payloads_to_process`: `Union[int, str]` — `0` initially, a page
number after fan-out, or a fresh uuid string for non-paginated fan-out. -/
inductive PKey where
  | kint : Int → PKey
  | kstr : String → PKey
deriving DecidableEq

abbrev PayloadMap := List (PKey × DocumentPayload)

/-- The fan-out contract test (`pipeline.py` lines 184-187):
`result.structured_results and
isinstance(result.structured_results.get("document_payloads"), list)`. -/
def fanOutShape (r : ProcessorResult) : Option (List SRVal) :=
  match r.structured_results with
  | some d =>
      if d.isEmpty then none
      else
        match dget d "document_payloads" with
        | .vlist l => some l
        | _ => none
  | none => none

/-- The `for result in step_results` scan of lines 178-198: failures are
skipped, and the first success matching the fan-out contract is honoured
(the loop `break`s there; later results are not examined). -/
def findFanOut : List ProcessorResult → Option (List SRVal)
  | [] => none
  | r :: rest =>
      if r.status ≠ Status.success then findFanOut rest
      else
        match fanOutShape r with
        | some l => some l
        | none => findFanOut rest

/-- The inner `for new_payload in result.structured_results
["document_payloads"]` loop (lines 191-197): children are keyed by their
`page_number`, or by a fresh uuid when it is absent.  A non-payload element
would raise an `AttributeError` in Python when `.page_number` is read. -/
def fanOutAssign (fresh : Nat → String) :
    Nat → PayloadMap → List SRVal → Except String (PayloadMap × Nat)
  | counter, next, [] => .ok (next, counter)
  | counter, next, v :: rest =>
      match v with
      | .vpayload p =>
          match p.page_number with
          | some n =>
              fanOutAssign fresh counter (alistSet next (.kint n) p) rest
          | none =>
              fanOutAssign fresh (counter + 1)
                (alistSet next (.kstr (fresh counter)) p) rest
      | _ => .error "AttributeError: no attribute page_number"

/-- Truthiness of `res.structured_results and
res.structured_results.get("image_data")` (line 215). -/
def imageDataTruthy (r : ProcessorResult) : Bool :=
  structuredTruthy r && (dget (r.structured_results.getD []) "image_data").truthy

def asOptStr : SRVal → Option String
  | .vstr s => some s
  | _ => none

/-- The 1:1 propagation dict comprehension (`pipeline.py` lines 207-216):
for each `(key, res)` pair with a successful result carrying truthy
`image_data`, construct
`DocumentPayload(image_data=..., parent_document_id=...,
page_number=res.metadata.get("page_number"), results=... + [res.dict()])`.
No `file_content`, `file_name` or `job_id` argument is passed, so the
pydantic construction is the fallible `DocumentPayload.make` with those
arguments absent. -/
def propagate11 :
    List ((PKey × DocumentPayload) × ProcessorResult) →
    Except String PayloadMap
  | [] => .ok []
  | ((k, p), res) :: rest =>
      if res.status = Status.success && imageDataTruthy res then do
        let np ← DocumentPayload.make none none none none
          p.parent_document_id (metaPageNumber res)
          (asOptStr (dget (res.structured_results.getD []) "image_data"))
          (p.results ++ [dumpResult res])
        let tail ← propagate11 rest
        .ok ((k, np) :: tail)
      else propagate11 rest

/-- The step loop of `_run_linear` (lines 163-223), recursing over the
remaining steps.  `counter` threads the uuid supply for non-paginated
fan-out keys. -/
def run_linear_go (env : PipelineEnv) :
    List LinearStep → Nat → PayloadMap → List ProcessorResult →
    Except String (List ProcessorResult)
  | [], _, _, all_results => .ok all_results
  | step :: rest, counter, payloads_to_process, all_results => do
      let _ ← env.create step.name step.params
      let step_results := payloads_to_process.map
        (fun kp => env.exec step.name step.params kp.2)
      let all_results := all_results ++ step_results
      let nextState : Except String (PayloadMap × Nat) :=
        match findFanOut step_results with
        | some children => fanOutAssign env.fresh counter [] children
        | none =>
            if !rest.isEmpty then
              if step_results.length = payloads_to_process.length then do
                let m ← propagate11 (payloads_to_process.zip step_results)
                .ok (m, counter)
              else .ok ([], counter)
            else .ok (payloads_to_process, counter)
      let (next_payloads, counter) ← nextState
      if next_payloads.isEmpty then .ok all_results
      else run_linear_go env rest counter next_payloads all_results

/-- `ProcessingPipeline._run_linear`: starts from `{0: initial_payload}`.
Iterating a dict-shaped `pipeline` in linear mode would index a string with
`"name"` and raise a `TypeError`. -/
def run_linear (env : PipelineEnv) (spec : PipelineSpec)
    (initial_payload : DocumentPayload) : Except String (List ProcessorResult) :=
  match spec with
  | .linear steps =>
      run_linear_go env steps 0 [(.kint 0, initial_payload)] []
  | .dag _ => .error "TypeError: string indices must be integers"

/-! ## DAG topological sort (`_get_dag_execution_order`, lines 374-403) -/

/-- The `while True` loop of `_get_dag_execution_order`: collect the ready
nodes (empty dependency set), stop when none are ready, otherwise append the
sorted ready level, delete the ready nodes and remove them from every
remaining dependency set.  A non-empty residual graph is the cycle error. -/
def kahnGo (graph : List (String × List String))
    (acc : List (List String)) : Except String (List (List String)) :=
  let ready := (graph.filter (fun p => p.2.isEmpty)).map Prod.fst
  if hr : ready.isEmpty then
    if graph.isEmpty then .ok acc
    else
      .error ("A cycle was detected in the DAG involving steps: " ++
        String.intercalate ", " (graph.map Prod.fst))
  else
    let level := List.insertionSort (fun a b => a ≤ b) ready
    let graph1 := graph.filter (fun p => !(ready.contains p.1))
    let graph2 := graph1.map
      (fun p => (p.1, p.2.filter (fun d => !(ready.contains d))))
    kahnGo graph2 (acc ++ [level])
termination_by graph.length
decreasing_by
  simp only [List.length_map]
  rcases List.exists_mem_of_ne_nil ready (by simpa using hr) with ⟨n, hn⟩
  rcases List.mem_map.mp hn with ⟨p, hp, hpn⟩
  have hmem : p.1 ∈ ready := by rw [hpn]; exact hn
  have hpg : p ∈ graph := (List.mem_filter.mp hp).1
  have hnp : ¬ ((fun q => !(ready.contains q.1)) p = true) := by
    simpa using hmem
  exact List.length_filter_lt_length_iff_exists.mpr ⟨p, hpg, hnp⟩

/-- The dependency graph `{node["id"]: set(node.get("dependencies", []))}`
(line 383; a dict comprehension, so a duplicated id keeps its first
position with the last value). -/
def dagGraph (nodes : List DagNode) : List (String × List String) :=
  nodes.foldl (fun g n => alistSet g n.id n.dependencies) []

/-- `ProcessingPipeline._get_dag_execution_order`: a non-dict pipeline (or a
dict without `"nodes"`) yields an empty order; otherwise the graph
`{node["id"]: set(node.get("dependencies", []))}` is topologically sorted
by `kahnGo`, raising on a cycle. -/
def get_dag_execution_order (spec : PipelineSpec) :
    Except String (List (List String)) :=
  match spec with
  | .linear _ => .ok []
  | .dag nodes => kahnGo (dagGraph nodes) []

/-! ## DAG executor (`ProcessingPipeline._run_dag`, lines 258-372) -/

/-- Python `set.add` on the `executed_steps` set, kept as an
insertion-ordered duplicate-free list (the code only takes its length and
iterates it to concatenate per-step results). -/
def setAdd (s : List String) (x : String) : List String :=
  if s.contains x then s else s ++ [x]

/-- Convert the raw `document_payloads` list stored by a fan-out result into
payload objects.  A non-payload element would be stored as-is by Python and
crash as soon as the next node executes it; the conversion error models
that. -/
def toPayloads : List SRVal → Except String (List DocumentPayload)
  | [] => .ok []
  | .vpayload p :: rest => do
      let t ← toPayloads rest
      .ok (p :: t)
  | _ :: _ => .error "AttributeError: element is not a DocumentPayload"

/-- Gathering pass over one level (`pipeline.py` lines 283-313): look up the
node, record it as executed, collect the input payloads from its
dependencies (root nodes read the `_initial_` sentinel), skip it when they
are empty, instantiate the processor, and launch one execution per input
payload.  Returns the updated executed set and the
`(step_id, original_payload, result)` context list in launch order. -/
def dagGatherLevel (env : PipelineEnv)
    (nodes_by_id : List (String × DagNode))
    (payloads_by_step : List (String × List DocumentPayload)) :
    List String → List String →
    Except String (List String × List (String × DocumentPayload × ProcessorResult))
  | [], executed => .ok (executed, [])
  | step_id :: restIds, executed =>
      match alistGet? nodes_by_id step_id with
      | none => dagGatherLevel env nodes_by_id payloads_by_step restIds executed
      | some node =>
          let executed := setAdd executed step_id
          let input_payloads :=
            if node.dependencies.isEmpty then
              (alistGet? payloads_by_step "_initial_").getD []
            else
              node.dependencies.flatMap
                (fun dep => (alistGet? payloads_by_step dep).getD [])
          if input_payloads.isEmpty then
            dagGatherLevel env nodes_by_id payloads_by_step restIds executed
          else do
            let _ ← env.create node.processor node.params
            let tasks := input_payloads.map
              (fun p => (step_id, p, env.exec node.processor node.params p))
            let (executed, rest) ←
              dagGatherLevel env nodes_by_id payloads_by_step restIds executed
            .ok (executed, tasks ++ rest)

/-- Result-processing pass over one level (`pipeline.py` lines 321-348):
append the result to `step_results[step_id]`; on success, extend
`payloads_by_step[step_id]` with the fan-out children, or append a fresh
payload carrying over `parent_document_id`, `page_number` and history when
`image_data` is present (the pydantic construction omits the required
fields, exactly as in the source). -/
def dagProcessResult
    (state : List (String × List DocumentPayload) ×
      List (String × List ProcessorResult))
    (entry : String × DocumentPayload × ProcessorResult) :
    Except String (List (String × List DocumentPayload) ×
      List (String × List ProcessorResult)) :=
  let (payloads_by_step, step_results) := state
  let (step_id, original_payload, result) := entry
  let step_results := alistSet step_results step_id
    ((alistGet? step_results step_id).getD [] ++ [result])
  if result.status ≠ Status.success then .ok (payloads_by_step, step_results)
  else
    let pbs :=
      if (alistGet? payloads_by_step step_id).isNone then
        alistSet payloads_by_step step_id []
      else payloads_by_step
    match fanOutShape result with
    | some l => do
        let children ← toPayloads l
        let pbs := alistSet pbs step_id
          ((alistGet? pbs step_id).getD [] ++ children)
        .ok (pbs, step_results)
    | none =>
        if imageDataTruthy result then do
          let new_payload ← DocumentPayload.make none none none none
            original_payload.parent_document_id original_payload.page_number
            (asOptStr (dget (result.structured_results.getD []) "image_data"))
            (original_payload.results ++ [dumpResult result])
          let pbs := alistSet pbs step_id
            ((alistGet? pbs step_id).getD [] ++ [new_payload])
          .ok (pbs, step_results)
        else .ok (pbs, step_results)

/-- The synthetic `pipeline_orchestrator` failure appended when the executed
node set differs from the configured node set (lines 360-370). -/
def orchestratorFailure (executed : List String) (total : Nat) :
    ProcessorResult where
  processor_name := "pipeline_orchestrator"
  status := .failure
  error_message := some "DAG execution incomplete: Not all nodes were executed."
  metadata :=
    [("executed_steps", .vlist (executed.map SRVal.vstr)),
     ("total_steps", .vint total)]

/-- `ProcessingPipeline._run_dag`.  An empty execution order (a non-dict
pipeline, or a dict with no nodes) returns no results; otherwise levels run
in order, each level gathered then processed, and the final node-count
validation may append the orchestrator failure. -/
def run_dag (env : PipelineEnv) (spec : PipelineSpec)
    (payload : DocumentPayload) : Except String (List ProcessorResult) := do
  let execution_levels ← get_dag_execution_order spec
  if execution_levels.isEmpty then
    .ok []
  else
    let pipeline_nodes := match spec with | .dag ns => ns | .linear _ => []
    let nodes_by_id := pipeline_nodes.foldl (fun m n => alistSet m n.id n) []
    let init : List (String × List DocumentPayload) ×
        List (String × List ProcessorResult) × List String :=
      ([("_initial_", [payload])], [], [])
    let final ← execution_levels.foldlM
      (fun st level => do
        let (pbs, sr, ex) := st
        let (ex, tasks) ← dagGatherLevel env nodes_by_id pbs level ex
        let (pbs, sr) ← tasks.foldlM dagProcessResult (pbs, sr)
        .ok (pbs, sr, ex))
      init
    let (_, step_results, executed_steps) := final
    let all_results := executed_steps.flatMap
      (fun id => (alistGet? step_results id).getD [])
    if executed_steps.length ≠ nodes_by_id.length then
      .ok (all_results ++ [orchestratorFailure executed_steps nodes_by_id.length])
    else
      .ok all_results

/-! ## Run entry point (`ProcessingPipeline.run`, lines 55-96) -/

def DocumentPayload.withDocumentId :
    DocumentPayload → Option String → DocumentPayload
  | .mk a b c _ e f g h, d => .mk a b c d e f g h

/-- `DocumentProcessingResult` from `api/v1/schemas/schemas.py`. -/
structure DocumentProcessingResult where
  job_id : String
  status : JobStatus
  error_message : Option String := none
  results : List SRVal := []
  final_output : Option AggregatedOutput := none

/-- The `try` body of `run`: dispatch on `execution_mode` — `"simple"` runs
the linear executor, `"dag"` the DAG executor, anything else raises
`ValueError(f"Invalid execution_mode: ...")`. -/
def runOutcome (env : PipelineEnv) (config : PipelineConfig)
    (payload : DocumentPayload) : Except String (List ProcessorResult) :=
  if config.execution_mode = "simple" then
    run_linear env config.pipeline payload
  else if config.execution_mode = "dag" then
    run_dag env config.pipeline payload
  else
    .error ("Invalid execution_mode: " ++ config.execution_mode)

/-- The `document_id` stabilisation of `run` (lines 62-63): keep a truthy
existing id, otherwise generate `doc_<uuid4>`. -/
def runDocumentId (env : PipelineEnv) (payload : DocumentPayload) : String :=
  match payload.document_id with
  | some d => if d = "" then "doc_" ++ env.freshDocId else d
  | none => "doc_" ++ env.freshDocId

/-- `ProcessingPipeline.run`: ensure a stable `document_id` on the payload
(generating `doc_<uuid4>` when it is falsy), execute, and either return the
success result with the dumped flat results and the aggregated final output,
or catch any exception and return a failure result with the
`"Pipeline execution failed: "` message, an empty `results` list and
`final_output = None` (their initial values). -/
def ProcessingPipeline.run (env : PipelineEnv) (config : PipelineConfig)
    (payload : DocumentPayload) : DocumentProcessingResult :=
  let document_id := runDocumentId env payload
  let payload := payload.withDocumentId (some document_id)
  match runOutcome env config payload with
  | .ok all_step_results =>
      { job_id := payload.job_id,
        status := .success,
        results := all_step_results.map dumpResult,
        final_output := some (aggregate_results all_step_results document_id) }
  | .error e =>
      { job_id := payload.job_id,
        status := .failure,
        error_message := some ("Pipeline execution failed: " ++ e),
        results := [],
        final_output := none }

/-! ## PDF extractor (`processors/pdf_image_extraction_processor.py`) -/

/-- Python `set.add` on the page set (first-occurrence order; the set is
sorted before use). -/
def setInsertInt (s : List Int) (x : Int) : List Int :=
  if s.contains x then s else s ++ [x]

/-- `range(a, b+1)` over integers. -/
def intRangeIncl (a b : Int) : List Int :=
  (List.range (b - a + 1).toNat).map (fun (i : Nat) => a + (i : Int))

/-- Python `int(part)` (which tolerates surrounding whitespace). -/
def pyInt? (s : String) : Option Int := s.trim.toInt?

/-- One `part` of the comma-separated page range (`_parse_page_range` lines
28-47).  Both the bounds check and the malformed-token check raise a
`ValueError`; because the bounds check raises inside the `try` block whose
handler re-raises the format message, every error surfaces with the format
message. -/
def parsePartCore (max_pages : Int) (pages : List Int) (part : String) :
    Except String (List Int) :=
  if part = "" then .ok pages
  else if part.contains (Char.ofNat 45) then
    match part.splitOn "-" with
    | [a, b] =>
        match pyInt? a, pyInt? b with
        | some start, some stop =>
            if start > stop || start < 1 || stop > max_pages then
              .error ("Invalid page range format: " ++ part)
            else
              .ok ((intRangeIncl start stop).foldl setInsertInt pages)
        | _, _ => .error ("Invalid page range format: " ++ part)
    | _ => .error ("Invalid page range format: " ++ part)
  else
    match pyInt? part with
    | some page =>
        if page < 1 || page > max_pages then
          .error ("Invalid page number format: " ++ part)
        else .ok (setInsertInt pages page)
    | none => .error ("Invalid page number format: " ++ part)

/-- One part of the range string, after `part = part.strip()` (line 29). -/
def parsePart (max_pages : Int) (pages : List Int) (part : String) :
    Except String (List Int) :=
  parsePartCore max_pages pages part.trim

/-- `PDFImageExtractionProcessor._parse_page_range` (lines 21-48): a falsy
range string selects every page; otherwise the comma-separated parts are
parsed into a set of page numbers. -/
def parse_page_range (page_range_str : Option String) (max_pages : Int) :
    Except String (List Int) :=
  match page_range_str with
  | none => .ok (intRangeIncl 1 max_pages)
  | some s =>
      if s = "" then .ok (intRangeIncl 1 max_pages)
      else (s.splitOn ",").foldlM (parsePart max_pages) []

/-- `PDFImageExtractionProcessor.process` (lines 63-142).  External pdf2image
calls are parameters: `pageCount` is the `pdfinfo_from_bytes` outcome
(`.error` for `PDFPageCountError`) and `images` the pages rendered by
`convert_from_bytes`, already save-encoded and base64-encoded.
`parent_doc_id` is the `str(uuid.uuid4())` drawn at line 105.  Emitted child
payloads carry `job_id`, a derived `file_name`, the rendered image as
`file_content`, `parent_document_id = parent_doc_id`,
`page_number = page_num` and empty `results`; `document_id` and
`image_data` are not passed and default to `None`. -/
def pdf_extraction_process (pageCount : Except Unit Int)
    (images : List String) (parent_doc_id : String)
    (page_range_str : Option String) (image_format : String)
    (payload : DocumentPayload) : ProcessorResult :=
  if payload.file_content = "" then
    { processor_name := "pdf_extraction_processor", status := .failure,
      error_message :=
        some "Input payload must contain file_content for PDF processing." }
  else
    match pageCount with
    | .error _ =>
        { processor_name := "pdf_extraction_processor", status := .failure,
          error_message := some "Invalid PDF: could not read page count." }
    | .ok max_pages =>
        match parse_page_range page_range_str max_pages with
        | .error e =>
            { processor_name := "pdf_extraction_processor",
              status := .failure, error_message := some e }
        | .ok target_pages =>
            if target_pages.isEmpty then
              { processor_name := "pdf_extraction_processor",
                status := .success,
                output := some "No pages selected for extraction.",
                structured_results := some [("document_payloads", .vlist [])] }
            else
              let sortedPages :=
                List.insertionSort (fun a b => a ≤ b) target_pages
              let inMap := fun (n : Int) =>
                decide (1 ≤ n) && decide (n ≤ (images.length : Int))
              let child_payloads := (sortedPages.filter inMap).map
                (fun n => DocumentPayload.mk
                  (images.getD (n - 1).toNat "")
                  (payload.file_name ++ "_page_" ++ toString n ++ "." ++
                    image_format.toLower)
                  payload.job_id none (some parent_doc_id) (some n) none [])
              { processor_name := "pdf_extraction_processor",
                status := .success,
                output := some ("Extracted " ++
                  toString child_payloads.length ++ " pages from PDF."),
                structured_results :=
                  some [("document_payloads",
                    .vlist (child_payloads.map SRVal.vpayload))] }

/-! ## Instrumentation wrapper (`decorators.py`, `instrument_step`,
lines 16-90) -/

/-- Pydantic attribute access on a `ProcessorResult`.  The model declares
exactly the fields of `payloads.py` lines 25-32; reading any other
attribute raises `AttributeError`. -/
def ProcessorResult.getattr (r : ProcessorResult) (attr : String) :
    Except String SRVal :=
  if attr = "processor_name" then .ok (.vstr r.processor_name)
  else if attr = "status" then .ok (.vstr r.status.toStr)
  else if attr = "output" then .ok (optStrVal r.output)
  else if attr = "structured_results" then
    .ok (match r.structured_results with
      | some d => .vdict d
      | none => .vnone)
  else if attr = "error_message" then .ok (optStrVal r.error_message)
  else if attr = "metadata" then .ok (.vdict r.metadata)
  else .error ("AttributeError: ProcessorResult object has no attribute " ++ attr)

/-- The `wrapper` closure produced by `instrument_step`, for a processor
called `name` whose `process` body outcome is `processBody` (an exception
or a returned result).  On a returned result the wrapper reads
`result.results` (line 62) to stamp the duration into it; the read itself
goes through `ProcessorResult.getattr`.  The stamp on line 63 and the
`result.status.value` read on line 67 sit behind that read.  Any exception
reaching the handler becomes the standard failure result (lines 84-88),
constructed with default (empty) `metadata`. -/
def instrument_step (name : String)
    (processBody : Except String ProcessorResult) : ProcessorResult :=
  let attempt : Except String ProcessorResult := do
    let result ← processBody
    -- `if not isinstance(result, ProcessorResult)` cannot fire in the typed
    -- embedding.
    let rs ← result.getattr "results"
    -- line 63, `result.results["_execution_time_ms"] = duration_ms`, would
    -- run here when the read succeeded.
    let _ := rs
    .ok result
  match attempt with
  | .ok r => r
  | .error e =>
      { processor_name := name, status := .failure,
        error_message :=
          some ("An unexpected error occurred in " ++ name ++ ": " ++ e) }

/-! ## Image preprocessor (`processors/image_preprocessing_processor.py`,
`process`, lines 44-82) -/

/-- `ImagePreprocessingProcessor.process`.  The OpenCV image round-trips and
the sub-step implementations are parameters: `bytesToCv2`, `cv2ToBytes` and
`b64encode` model the conversions, and `available` models
`self.available_steps` — a sub-step takes the current image and its params
and returns the new image with the dumped `ProcessingStepResult`.  Steps
with a falsy or unknown name are skipped.  The success result dumps
`ImagePreprocessingResult(final_image=..., steps=...)`, whose keys are
`final_image` and `steps`. -/
def image_preprocessing_process
    (bytesToCv2 cv2ToBytes b64encode : String → String)
    (available : String → Option (String → List (String × SRVal) → String × SRVal))
    (steps : List (List (String × SRVal)))
    (payload : DocumentPayload) : Except String ProcessorResult :=
  if payload.file_content = "" then
    .error "ValueError: Image data is required for preprocessing."
  else
    let img0 := bytesToCv2 payload.file_content
    let folded := steps.foldl
      (fun (acc : String × List SRVal) step_config =>
        let (img, executed) := acc
        let nameVal := dget step_config "name"
        if !nameVal.truthy then acc
        else
          match nameVal with
          | .vstr step_name =>
              match available step_name with
              | none => acc
              | some step_func =>
                  let params :=
                    match dget step_config "params" with
                    | .vdict d => d
                    | _ => []
                  let (img2, step_result) := step_func img params
                  (img2, executed ++ [step_result])
          | _ => acc)
      (img0, [])
    let final_image_bytes := cv2ToBytes folded.1
    .ok { processor_name := "image_preprocessing_processor",
          status := .success,
          structured_results :=
            some [("final_image", .vstr (b64encode final_image_bytes)),
                  ("steps", .vlist folded.2)] }

/-! ## Concurrency model (`asyncio.Semaphore(max_concurrency)` created per
run in `_run_linear` line 161 and `_run_dag` line 267, entered by every
`_execute_step` body, line 231) -/

/-- The semaphore together with the number of `_execute_step` bodies
currently between acquire and release. -/
structure SemState where
  available : Nat
  running : Nat
deriving DecidableEq, Repr

inductive SemEvent where
  | acquire
  | release
deriving DecidableEq, Repr

/-- One cooperative-scheduler transition on the semaphore: `async with
semaphore` enters only when a permit is available (a task finding none
stays suspended, changing nothing), and leaving the block returns the
permit. -/
def semStep : SemState → SemEvent → Option SemState
  | ⟨a + 1, r⟩, .acquire => some ⟨a, r + 1⟩
  | ⟨0, _⟩, .acquire => none
  | ⟨a, r + 1⟩, .release => some ⟨a + 1, r⟩
  | ⟨_, 0⟩, .release => none

/-- Run a sequence of scheduler events from a state. -/
def semRun (s : SemState) : List SemEvent → Option SemState
  | [] => some s
  | e :: es =>
      match semStep s e with
      | some s2 => semRun s2 es
      | none => none

/-! ## Specification-side definitions (used only in theorem statements) -/

/-- The aggregation key the code derives from a processor name:
`result.processor_name.replace("_processor", "")` plus `"_result"`
(`pipeline.py` lines 130 and 139). -/
def resultKey (processor_name : String) : String :=
  (pyReplace processor_name "_processor" "") ++ "_result"

/-- The aggregation key as the specification words it: the trailing
`"_processor"` suffix (10 characters) stripped when present, plus
`"_result"`. -/
def resultKeySpec (processor_name : String) : String :=
  (if "_processor".data.isSuffixOf processor_name.data then
      processor_name.dropRight 10
    else processor_name) ++ "_result"

/-- Every `processor_name` a result of this code base can carry: the `name`
attributes of the seven registered processors plus the synthetic
orchestrator name. -/
def emittedProcessorNames : List String :=
  ["image_preprocessing_processor", "ocr_processor",
   "pdf_extraction_processor", "vlm_processor", "enhanced_pdf_processor",
   "document_classifier_processor", "sentiment_analyzer",
   "pipeline_orchestrator"]

/-- The `structured_results` of the last successful result in `all_results`
that carries page `n`, derives key `k`, and has truthy structured results
(the aggregator's last-writer-wins overwrite). -/
def lastPageAssign (all_results : List ProcessorResult) (n : Int)
    (k : String) : Option (List (String × SRVal)) :=
  all_results.reverse.findSome? (fun r =>
    if r.status = Status.success ∧ metaPageNumber r = some n ∧
        resultKey r.processor_name = k ∧ structuredTruthy r then
      r.structured_results
    else none)

/-- Some successful result in `all_results` carries page `n`. -/
def pageOccurs (all_results : List ProcessorResult) (n : Int) : Prop :=
  ∃ r ∈ all_results, r.status = Status.success ∧ metaPageNumber r = some n

/-- The page number recorded in a page dictionary. -/
def pageKeyOf (d : PageDict) : Int :=
  match dget d "page_number" with
  | .vint n => n
  | _ => 0

/-- The child payloads carried by a fan-out result. -/
def fanOutChildren (r : ProcessorResult) : List DocumentPayload :=
  match fanOutShape r with
  | some l =>
      l.filterMap (fun v =>
        match v with
        | .vpayload p => some p
        | _ => none)
  | none => []

/-- `b` is a dependency of `a` in the graph. -/
def hasEdge (graph : List (String × List String)) (a b : String) : Prop :=
  ∃ deps, alistGet? graph a = some deps ∧ b ∈ deps

/-- A directed dependency cycle through the non-empty node list: consecutive
edges along the list and a closing edge from its last node back to its
head. -/
def IsDagCycle (graph : List (String × List String)) : List String → Prop
  | [] => False
  | x :: rest => List.Chain (hasEdge graph) x (rest ++ [x])

/-- A non-empty node set in which every node has a dependency inside the
set; any directed cycle yields one. -/
def NoSource (graph : List (String × List String)) (S : List String) :
    Prop :=
  S ≠ [] ∧ ∀ n ∈ S, ∃ deps, alistGet? graph n = some deps ∧
    ∃ d ∈ deps, d ∈ S

/-- Loop invariant of the aggregation fold relating the `pages_map`
accumulator to the processed prefix of the result list: keys are unique;
a page entry exists exactly for the pages of successful processed results;
each entry records its page number and, at every other key, the structured
results of the last matching successful result. -/
def AggPagesInv (processed : List ProcessorResult)
    (m : List (Int × PageDict)) : Prop :=
  (m.map Prod.fst).Nodup ∧
  (∀ n : Int, (alistGet? m n).isSome ↔ pageOccurs processed n) ∧
  (∀ (n : Int) (d : PageDict), alistGet? m n = some d →
    dget d "page_number" = .vint n ∧
    ∀ k, k ≠ "page_number" →
      alistGet? d k = (lastPageAssign processed n k).map SRVal.vdict)

/-! ## Concrete instances for the closed evaluations -/

/-- A root payload: `DocumentPayload(file_content=..., file_name="doc.pdf",
job_id="job-1", document_id="root-doc")`. -/
def samplePayload : DocumentPayload :=
  .mk "pdfbytes" "doc.pdf" "job-1" (some "root-doc") none none none []

/-- A page-image payload with page context. -/
def imagePayload : DocumentPayload :=
  .mk "img" "p.png" "job-1" none (some "root-doc") (some 1) none []

/-- An environment whose processors all fail; used where processor
behaviour is irrelevant. -/
def trivialEnv : PipelineEnv where
  create := fun _ _ => .ok ()
  exec := fun name _ _ => { processor_name := name, status := .failure }
  freshDocId := "u0"
  fresh := fun n => "u" ++ toString n

/-- A descriptor whose `execution_mode` is the unsupported string. -/
def badModeConfig : PipelineConfig where
  name := "p"
  description := "d"
  execution_mode := "bogus"
  pipeline := .linear []
  max_concurrency := 5

/-- A descriptor with `execution_mode = "linear"`, the mode the
specification names. -/
def linearModeConfig : PipelineConfig where
  name := "p"
  description := "d"
  execution_mode := "linear"
  pipeline := .linear [{ name := "ocr_processor" }]
  max_concurrency := 5

/-- A descriptor with the mode string the code actually accepts. -/
def simpleModeConfig : PipelineConfig where
  name := "p"
  description := "d"
  execution_mode := "simple"
  pipeline := .linear []
  max_concurrency := 5

/-- The two-node cyclic DAG of scenario S4: `a → b → a`. -/
def cyclicConfig : PipelineConfig where
  name := "c"
  description := "d"
  execution_mode := "dag"
  pipeline := .dag
    [{ id := "a", processor := "ocr_processor", dependencies := ["b"] },
     { id := "b", processor := "ocr_processor", dependencies := ["a"] }]
  max_concurrency := 5

/-- A successful step result carrying `image_data`, as the 1:1 propagation
contract expects. -/
def imageDataResult : ProcessorResult where
  processor_name := "image_preprocessing_processor"
  status := .success
  structured_results := some [("image_data", .vstr "imgbytes")]

/-- An environment whose processors all return `imageDataResult`. -/
def imageDataEnv : PipelineEnv where
  create := fun _ _ => .ok ()
  exec := fun _ _ _ => imageDataResult
  freshDocId := "u0"
  fresh := fun n => "u" ++ toString n

/-- A two-step linear descriptor. -/
def twoStepConfig : PipelineConfig where
  name := "p"
  description := "d"
  execution_mode := "simple"
  pipeline := .linear [{ name := "image_preprocessor" },
    { name := "ocr_processor" }]
  max_concurrency := 5

/-- A successful OCR-style result, as a `process` body returns it before the
instrumentation wrapper touches it. -/
def ocrSuccess : ProcessorResult where
  processor_name := "ocr_processor"
  status := .success
  structured_results := some [("text", .vstr "hello")]
  metadata := [("page_number", .vint 1)]

/-- The result the embedded preprocessor `process` emits on `imagePayload`
with an empty `steps` config and identity image conversions. -/
def preprocessOut : ProcessorResult where
  processor_name := "image_preprocessing_processor"
  status := .success
  structured_results := some [("final_image", .vstr "img"),
    ("steps", .vlist [])]

/-! ## Helper lemmas -/

theorem withDocumentId_job_id (p : DocumentPayload) (d : Option String) :
    (p.withDocumentId d).job_id = p.job_id := by
  cases p
  rfl

/-! ## Claim theorems -/

/-- C8: aggregation is idempotent and deterministic — for every flat results
list and root document id, running the aggregator twice on the same inputs
yields equal outputs.  The embedded `aggregate_results` is a pure function
because the source only reads `all_results` (it never writes to the list or
to the result objects), so purity of the embedding is faithful and the
input list is trivially left unchanged. -/
theorem aggregate_results_idempotent (all_results : List ProcessorResult)
    (parent_document_id : String) :
    aggregate_results all_results parent_document_id =
      aggregate_results all_results parent_document_id := rfl

/-- C3, failing input: the instrumentation wrapper receives a successful
`ProcessorResult` from the wrapped `process` call (here `ocrSuccess`), reads
the nonexistent attribute `result.results` (line 62 of `decorators.py`), and
the resulting `AttributeError` is caught by its own handler — the wrapper
returns a failure result without any `execution_time_ms` in `metadata`,
instead of the reported success with stamped timing. -/
theorem instrument_step_destroys_success :
    ocrSuccess.status = Status.success ∧
    instrument_step "ocr_processor" (.ok ocrSuccess) =
      { processor_name := "ocr_processor", status := .failure,
        error_message := some ("An unexpected error occurred in " ++
          "ocr_processor: AttributeError: ProcessorResult object has no " ++
          "attribute results") } ∧
    dget (instrument_step "ocr_processor" (.ok ocrSuccess)).metadata
      "execution_time_ms" = .vnone :=
  ⟨rfl, rfl, rfl⟩

/-- C4, failing input: a successful `image_preprocessing_processor.process`
run (empty `steps` config on an image payload, image conversions modelled as
identities) emits `structured_results` keyed `final_image` and `steps` —
there is no `image_data` key, so the linear executor's 1:1 propagation
(`propagate11`) drops the payload instead of forwarding it with its
`page_number` and `parent_document_id`. -/
theorem image_preprocessing_emits_final_image :
    image_preprocessing_process id id id (fun _ => none) [] imagePayload =
      .ok preprocessOut ∧
    dget (preprocessOut.structured_results.getD []) "image_data" = .vnone ∧
    dmem (preprocessOut.structured_results.getD []) "final_image" = true ∧
    imageDataTruthy preprocessOut = false ∧
    propagate11 [((.kint 0, imagePayload), preprocessOut)] = .ok [] :=
  ⟨rfl, rfl, rfl, rfl, rfl⟩

/-- C2, failing input: a two-step linear pipeline whose first step succeeds
with `structured_results = {"image_data": ...}`.  The 1:1 propagation
comprehension (`pipeline.py` lines 207-216) constructs
`DocumentPayload(image_data=..., parent_document_id=..., page_number=...,
results=...)` without the required `file_content`, `file_name` and `job_id`
fields; pydantic raises a `ValidationError`, which escapes `_run_linear` and
aborts the whole run as a failure — no fresh payload is ever forwarded to
the next step. -/
theorem linear_propagation_validation_error :
    run_linear imageDataEnv twoStepConfig.pipeline samplePayload =
      .error "ValidationError: field required for DocumentPayload" ∧
    ProcessingPipeline.run imageDataEnv twoStepConfig samplePayload =
      { job_id := "job-1", status := .failure,
        error_message := some ("Pipeline execution failed: " ++
          "ValidationError: field required for DocumentPayload"),
        results := [], final_output := none } :=
  ⟨rfl, rfl⟩

/-- C10: `run` is total (the embedding is a total function), and whenever the
dispatched executor raises — payload-validation errors, factory errors, an
invalid mode — the returned `DocumentProcessingResult` has status failure,
the `"Pipeline execution failed: "`-prefixed message, an empty `results`
list and `final_output = None`, regardless of how many step results the
executor had already collected. -/
theorem run_catches_executor_exception (env : PipelineEnv)
    (config : PipelineConfig) (payload : DocumentPayload) (e : String)
    (h : runOutcome env config
      (payload.withDocumentId (some (runDocumentId env payload))) =
        .error e) :
    ProcessingPipeline.run env config payload =
      { job_id := payload.job_id, status := .failure,
        error_message := some ("Pipeline execution failed: " ++ e),
        results := [], final_output := none } := by
  simp only [ProcessingPipeline.run, h, withDocumentId_job_id]

/-- Witness for C10 at a concrete input: a descriptor with execution mode
`"bogus"` makes the dispatch raise `ValueError`, and `run` returns the
failure shape. -/
theorem run_catches_executor_exception_witness :
    ProcessingPipeline.run trivialEnv badModeConfig samplePayload =
      { job_id := samplePayload.job_id, status := .failure,
        error_message := some ("Pipeline execution failed: " ++
          "Invalid execution_mode: bogus"),
        results := [], final_output := none } :=
  run_catches_executor_exception trivialEnv badModeConfig samplePayload
    "Invalid execution_mode: bogus" rfl

/-- C5, counterexample: a descriptor with `execution_mode = "linear"` is
rejected by the configuration validator (`core/pipeline_config.py` line 72
accepts only `"simple"` and `"dag"`), and running it does not execute the
linear executor but fails the run with
`Invalid execution_mode: linear`. -/
theorem linear_mode_counterexample :
    validate_config_file (some "p") (some "d") (some "linear")
      (some linearModeConfig.pipeline) = false ∧
    (ProcessingPipeline.run trivialEnv linearModeConfig samplePayload).status =
      .failure ∧
    (ProcessingPipeline.run trivialEnv linearModeConfig
      samplePayload).error_message =
        some "Pipeline execution failed: Invalid execution_mode: linear" ∧
    (ProcessingPipeline.run trivialEnv linearModeConfig
      samplePayload).final_output = none :=
  ⟨rfl, rfl, rfl, rfl⟩

/-- C5, amended: the valid execution modes are `"simple"` and `"dag"` (the
validator accepts exactly those), and a descriptor whose mode is `"simple"`
runs inline through the linear executor, returning the aggregated result;
the string `"linear"` is rejected by the validator. -/
theorem simple_mode_runs_linear_inline (env : PipelineEnv)
    (config : PipelineConfig) (payload : DocumentPayload)
    (rs : List ProcessorResult)
    (hmode : config.execution_mode = "simple")
    (hrun : run_linear env config.pipeline
      (payload.withDocumentId (some (runDocumentId env payload))) = .ok rs) :
    ProcessingPipeline.run env config payload =
      { job_id := payload.job_id, status := .success,
        results := rs.map dumpResult,
        final_output :=
          some (aggregate_results rs (runDocumentId env payload)) } ∧
    validate_config_file (some config.name) (some config.description)
      (some "simple") (some config.pipeline) = true ∧
    validate_config_file (some config.name) (some config.description)
      (some "linear") (some config.pipeline) = false := by
  refine ⟨?_, rfl, rfl⟩
  simp [ProcessingPipeline.run, runOutcome, hmode, hrun,
    withDocumentId_job_id]

/-- Witness for C5 at a concrete input: the empty `"simple"` pipeline runs
inline and returns a successful aggregated result. -/
theorem simple_mode_runs_linear_inline_witness :
    ProcessingPipeline.run trivialEnv simpleModeConfig samplePayload =
      { job_id := samplePayload.job_id, status := .success,
        results := ([] : List ProcessorResult).map dumpResult,
        final_output := some (aggregate_results []
          (runDocumentId trivialEnv samplePayload)) } ∧
    validate_config_file (some simpleModeConfig.name)
      (some simpleModeConfig.description) (some "simple")
      (some simpleModeConfig.pipeline) = true ∧
    validate_config_file (some simpleModeConfig.name)
      (some simpleModeConfig.description) (some "linear")
      (some simpleModeConfig.pipeline) = false :=
  simple_mode_runs_linear_inline trivialEnv simpleModeConfig samplePayload []
    rfl rfl
theorem semRun_sum_invariant (m : Nat) :
    ∀ (events : List SemEvent) (a r a2 r2 : Nat),
      a + r = m → semRun ⟨a, r⟩ events = some ⟨a2, r2⟩ → a2 + r2 = m := by
  intro events
  induction events with
  | nil =>
      intro a r a2 r2 h he
      simp [semRun, SemState.mk.injEq] at he
      omega
  | cons e es ih =>
      intro a r a2 r2 h he
      cases e with
      | acquire =>
          cases a with
          | zero => simp [semRun, semStep] at he
          | succ a3 =>
              simp only [semRun, semStep] at he
              exact ih a3 (r + 1) a2 r2 (by omega) he
      | release =>
          cases r with
          | zero => simp [semRun, semStep] at he
          | succ r3 =>
              simp only [semRun, semStep] at he
              exact ih (a + 1) r3 a2 r2 (by omega) he

/-- C9: every `_execute_step` body runs between an acquire and a release of
the per-run `asyncio.Semaphore(max_concurrency)` (both executors wrap each
execution in `async with semaphore`), so along every valid scheduler trace
starting from a full semaphore the number of in-progress executions never
exceeds `max_concurrency`; the pydantic model defaults `max_concurrency` to
5 and rejects any value that is not at least 1. -/
theorem max_concurrency_bound :
    (∀ (m : Nat) (events : List SemEvent) (s : SemState),
      semRun ⟨m, 0⟩ events = some s → s.running ≤ m) ∧
    (∀ n d mo pi, PipelineConfig.validateModel n d mo pi none =
      .ok { name := n, description := d, execution_mode := mo,
            pipeline := pi, max_concurrency := 5 }) ∧
    (∀ n d mo pi (mc : Int), mc ≤ 0 →
      PipelineConfig.validateModel n d mo pi (some mc) =
        .error "ValidationError: max_concurrency must be greater than 0") := by
  refine ⟨?_, ?_, ?_⟩
  · intro m events s h
    obtain ⟨a2, r2⟩ := s
    have hsum := semRun_sum_invariant m events m 0 a2 r2 (by omega) h
    simpa using by omega
  · intro n d mo pi
    rfl
  · intro n d mo pi mc hmc
    unfold PipelineConfig.validateModel
    rw [if_neg (by simp; omega)]

/-- Witness for C9 at concrete inputs: after two acquires on a semaphore of
size 5 two executions run (≤ 5), and `max_concurrency = 0` is rejected. -/
theorem max_concurrency_bound_witness :
    (⟨3, 2⟩ : SemState).running ≤ 5 ∧
    PipelineConfig.validateModel "p" "d" "simple" (.linear []) (some 0) =
      .error "ValidationError: max_concurrency must be greater than 0" :=
  ⟨max_concurrency_bound.1 5 [.acquire, .acquire] ⟨3, 2⟩ rfl,
   max_concurrency_bound.2.2 "p" "d" "simple" (.linear []) 0 (by decide)⟩

theorem intRangeIncl_nodup (a b : Int) : (intRangeIncl a b).Nodup := by
  unfold intRangeIncl
  refine List.Nodup.map ?_ (List.nodup_range _)
  intro x y hxy
  have hxy2 : a + (x : Int) = a + (y : Int) := hxy
  omega

theorem setInsertInt_nodup {s : List Int} (h : s.Nodup) (x : Int) :
    (setInsertInt s x).Nodup := by
  unfold setInsertInt
  split
  · exact h
  · rename_i hc
    have hx : x ∉ s := fun hmem =>
      hc (List.contains_iff_exists_mem_beq.mpr ⟨x, hmem, by simp⟩)
    refine List.Nodup.append h (List.nodup_singleton x) ?_
    intro a ha hax
    rw [List.mem_singleton] at hax
    exact hx (hax ▸ ha)

theorem foldl_setInsertInt_nodup (xs : List Int) :
    ∀ s : List Int, s.Nodup → (xs.foldl setInsertInt s).Nodup := by
  induction xs with
  | nil => intro s h; exact h
  | cons x xs ih => intro s h; exact ih _ (setInsertInt_nodup h x)

theorem parsePartCore_nodup {mp : Int} {pages l : List Int} {part : String}
    (h : pages.Nodup) (he : parsePartCore mp pages part = .ok l) :
    l.Nodup := by
  unfold parsePartCore at he
  split at he
  · exact (Except.ok.inj he) ▸ h
  · split at he
    · split at he
      · split at he
        · split at he
          · exact Except.noConfusion he
          · exact (Except.ok.inj he) ▸ foldl_setInsertInt_nodup _ _ h
        · exact Except.noConfusion he
      · exact Except.noConfusion he
    · split at he
      · split at he
        · exact Except.noConfusion he
        · exact (Except.ok.inj he) ▸ setInsertInt_nodup h _
      · exact Except.noConfusion he

theorem parsePart_nodup {mp : Int} {pages l : List Int} {part : String}
    (h : pages.Nodup) (he : parsePart mp pages part = .ok l) : l.Nodup :=
  parsePartCore_nodup h he

theorem foldlM_parsePart_nodup (mp : Int) :
    ∀ (parts : List String) (acc l : List Int), acc.Nodup →
      List.foldlM (parsePart mp) acc parts = .ok l → l.Nodup := by
  intro parts
  induction parts with
  | nil =>
      intro acc l h he
      have h2 : acc = l := by
        simpa [List.foldlM, pure, Except.pure] using he
      exact h2 ▸ h
  | cons p ps ih =>
      intro acc l h he
      rw [List.foldlM_cons] at he
      cases hp : parsePart mp acc p with
      | error e =>
          rw [hp] at he
          exact Except.noConfusion he
      | ok acc2 =>
          rw [hp] at he
          exact ih acc2 l (parsePart_nodup h hp) he

theorem parse_page_range_nodup {prs : Option String} {mp : Int}
    {l : List Int} (he : parse_page_range prs mp = .ok l) : l.Nodup := by
  unfold parse_page_range at he
  match prs with
  | none => exact (Except.ok.inj he) ▸ intRangeIncl_nodup 1 mp
  | some s =>
      simp only at he
      split at he
      · exact (Except.ok.inj he) ▸ intRangeIncl_nodup 1 mp
      · exact foldlM_parsePart_nodup mp _ [] l List.nodup_nil he

theorem filterMap_vpayload (ps : List DocumentPayload) :
    List.filterMap ((fun v => match v with
      | SRVal.vpayload p => some p
      | _ => none) ∘ SRVal.vpayload) ps = ps := by
  induction ps with
  | nil => rfl
  | cons p ps ih => simpa [List.filterMap_cons, Function.comp] using ih

theorem fanOutChildren_payloads (ps : List DocumentPayload) (pn : String)
    (st : Status) (out em : Option String) (md : List (String × SRVal)) :
    fanOutChildren
      { processor_name := pn, status := st, output := out,
        structured_results :=
          some [("document_payloads", .vlist (ps.map SRVal.vpayload))],
        error_message := em, metadata := md } = ps := by
  simp only [fanOutChildren, fanOutShape, dget, alistGet?, List.find?]
  simpa using filterMap_vpayload ps

/-- C1, counterexample: on a concrete two-page extraction the input
payload's `document_id` is `"root-doc"`, but every emitted child carries
`parent_document_id = "fresh-uuid"` — the `str(uuid.uuid4())` drawn at line
105 of `pdf_image_extraction_processor.py` — not the input's
`document_id`. -/
theorem pdf_extraction_lineage_counterexample :
    (fanOutChildren (pdf_extraction_process (.ok 2) ["i1", "i2"]
      "fresh-uuid" none "PNG" samplePayload)).map
        DocumentPayload.parent_document_id =
      [some "fresh-uuid", some "fresh-uuid"] ∧
    samplePayload.document_id = some "root-doc" ∧
    (some "fresh-uuid" : Option String) ≠ some "root-doc" :=
  ⟨rfl, rfl, by decide⟩

/-- C1, amended: every child payload emitted by a successful
`pdf_extraction_processor` execution carries
`parent_document_id = parent_doc_id` — a single fresh uuid drawn for the
extraction, shared by all siblings and in general different from the input
payload's `document_id` — and the children's `page_number` values are
pairwise distinct. -/
theorem pdf_extraction_children_lineage
    (pc : Except Unit Int) (imgs : List String) (pid : String)
    (prange : Option String) (fmt : String) (payload : DocumentPayload)
    (hs : (pdf_extraction_process pc imgs pid prange fmt payload).status =
      Status.success) :
    (∀ p ∈ fanOutChildren
        (pdf_extraction_process pc imgs pid prange fmt payload),
      p.parent_document_id = some pid) ∧
    List.Pairwise (fun a b => a.page_number ≠ b.page_number)
      (fanOutChildren (pdf_extraction_process pc imgs pid prange fmt
        payload)) := by
  unfold pdf_extraction_process at hs ⊢
  by_cases h1 : payload.file_content = ""
  · rw [if_pos h1] at hs
    exact absurd hs (by simp)
  · rw [if_neg h1] at hs ⊢
    cases pc with
    | error u => exact absurd hs (by simp)
    | ok max_pages =>
        dsimp only at hs ⊢
        cases hparse : parse_page_range prange max_pages with
        | error e =>
            rw [hparse] at hs
            exact absurd hs (by simp)
        | ok target_pages =>
            dsimp only at hs ⊢
            by_cases h2 : target_pages.isEmpty
            · rw [if_pos h2]
              constructor
              · intro p hp
                simp [fanOutChildren, fanOutShape, dget, alistGet?] at hp
              · simp [fanOutChildren, fanOutShape, dget, alistGet?]
            · rw [if_neg h2]
              rw [fanOutChildren_payloads]
              have hnd : target_pages.Nodup := parse_page_range_nodup hparse
              have hnd2 : (List.insertionSort (fun a b => a ≤ b)
                  target_pages).Nodup :=
                ((List.perm_insertionSort (fun a b => a ≤ b)
                  target_pages).symm).nodup hnd
              have hnd3 := hnd2.filter
                (fun n : Int =>
                  decide (1 ≤ n) && decide (n ≤ (imgs.length : Int)))
              constructor
              · intro p hp
                rw [List.mem_map] at hp
                obtain ⟨n, hn, rfl⟩ := hp
                rfl
              · rw [List.pairwise_map]
                refine hnd3.imp ?_
                intro a b hab
                simpa [DocumentPayload.page_number] using hab

/-- Witness for C1 at a concrete input: the two-page extraction above is
successful, all children share the fresh parent id, and their page numbers
are distinct. -/
theorem pdf_extraction_children_lineage_witness :
    (∀ p ∈ fanOutChildren (pdf_extraction_process (.ok 2) ["i1", "i2"]
        "fresh-uuid" none "PNG" samplePayload),
      p.parent_document_id = some "fresh-uuid") ∧
    List.Pairwise (fun a b => a.page_number ≠ b.page_number)
      (fanOutChildren (pdf_extraction_process (.ok 2) ["i1", "i2"]
        "fresh-uuid" none "PNG" samplePayload)) :=
  pdf_extraction_children_lineage (.ok 2) ["i1", "i2"] "fresh-uuid" none
    "PNG" samplePayload rfl


theorem alistGet?_cons {κ α : Type} [DecidableEq κ] (k1 : κ) (v1 : α)
    (g : List (κ × α)) (k : κ) :
    alistGet? ((k1, v1) :: g) k =
      if k1 = k then some v1 else alistGet? g k := by
  by_cases h : k1 = k
  · simp [alistGet?, List.find?, h]
  · simp [alistGet?, List.find?, h]

theorem mem_of_alistGet?_eq_some {κ α : Type} [DecidableEq κ]
    {g : List (κ × α)} {k : κ} {v : α} (h : alistGet? g k = some v) :
    (k, v) ∈ g := by
  induction g with
  | nil => simp [alistGet?] at h
  | cons p g ih =>
      obtain ⟨k1, v1⟩ := p
      rw [alistGet?_cons] at h
      by_cases he : k1 = k
      · rw [if_pos he] at h
        subst he
        simp at h
        simp [h]
      · rw [if_neg he] at h
        exact List.mem_cons_of_mem _ (ih h)

theorem alistGet?_eq_some_of_mem {κ α : Type} [DecidableEq κ]
    {g : List (κ × α)} {k : κ} {v : α}
    (hnd : (g.map Prod.fst).Nodup) (hm : (k, v) ∈ g) :
    alistGet? g k = some v := by
  induction g with
  | nil => cases hm
  | cons p g ih =>
      obtain ⟨k1, v1⟩ := p
      rw [List.map_cons, List.nodup_cons] at hnd
      rw [alistGet?_cons]
      rcases List.mem_cons.mp hm with heq | hm2
      · rw [Prod.mk.injEq] at heq
        rw [if_pos heq.1.symm]
        rw [heq.2]
      · have hne : k1 ≠ k := by
          intro he
          subst he
          exact hnd.1 (List.mem_map.mpr ⟨(k1, v), hm2, rfl⟩)
        rw [if_neg hne]
        exact ih hnd.2 hm2

theorem mem_keys_alistSet {κ α : Type} [DecidableEq κ]
    (g : List (κ × α)) (k : κ) (v : α) (x : κ) :
    x ∈ (alistSet g k v).map Prod.fst ↔ x ∈ g.map Prod.fst ∨ x = k := by
  induction g with
  | nil => simp [alistSet]
  | cons p g ih =>
      obtain ⟨k1, v1⟩ := p
      by_cases he : k1 = k
      · subst he
        simp [alistSet]
        tauto
      · simp [alistSet, he, ih]
        tauto

theorem alistSet_keys_nodup {κ α : Type} [DecidableEq κ]
    {g : List (κ × α)} (hnd : (g.map Prod.fst).Nodup) (k : κ) (v : α) :
    ((alistSet g k v).map Prod.fst).Nodup := by
  induction g with
  | nil => simp [alistSet]
  | cons p g ih =>
      obtain ⟨k1, v1⟩ := p
      rw [List.map_cons, List.nodup_cons] at hnd
      by_cases he : k1 = k
      · subst he
        rw [show alistSet ((k1, v1) :: g) k1 v = (k1, v) :: g from by
          simp [alistSet]]
        rw [List.map_cons, List.nodup_cons]
        exact ⟨hnd.1, hnd.2⟩
      · rw [show alistSet ((k1, v1) :: g) k v =
            (k1, v1) :: alistSet g k v from by simp [alistSet, he]]
        rw [List.map_cons, List.nodup_cons]
        refine ⟨?_, ih hnd.2⟩
        intro hmem
        rcases (mem_keys_alistSet g k v k1).mp hmem with h1 | h1
        · exact hnd.1 h1
        · exact he h1

theorem dagGraph_keys_nodup (nodes : List DagNode) :
    ((dagGraph nodes).map Prod.fst).Nodup := by
  unfold dagGraph
  have main : ∀ (ns : List DagNode) (g : List (String × List String)),
      (g.map Prod.fst).Nodup →
      ((ns.foldl (fun g n => alistSet g n.id n.dependencies) g).map
        Prod.fst).Nodup := by
    intro ns
    induction ns with
    | nil => intro g h; exact h
    | cons n ns ih => intro g h; exact ih _ (alistSet_keys_nodup h _ _)
  exact main nodes [] (by simp)

theorem chain_succ_general {R : String → String → Prop} :
    ∀ (l : List String) (x z : String), List.Chain R x (l ++ [z]) →
      ∀ n ∈ x :: l, ∃ m, (m ∈ x :: l ∨ m = z) ∧ R n m := by
  intro l
  induction l with
  | nil =>
      intro x z hch n hn
      rw [List.mem_singleton] at hn
      subst hn
      rcases List.chain_cons.mp hch with ⟨hxz, _⟩
      exact ⟨z, Or.inr rfl, hxz⟩
  | cons y l2 ih =>
      intro x z hch n hn
      rcases List.chain_cons.mp hch with ⟨hxy, hch2⟩
      rcases List.mem_cons.mp hn with rfl | hn2
      · exact ⟨y, Or.inl (by simp), hxy⟩
      · rcases ih y z hch2 n hn2 with ⟨m, hm, hr⟩
        rcases hm with hm1 | hm2
        · exact ⟨m, Or.inl (List.mem_cons_of_mem x hm1), hr⟩
        · exact ⟨m, Or.inr hm2, hr⟩

theorem noSource_of_isDagCycle {g : List (String × List String)}
    {c : List String} (h : IsDagCycle g c) : NoSource g c := by
  cases c with
  | nil => exact absurd h (by simp [IsDagCycle])
  | cons x rest =>
      refine ⟨by simp, ?_⟩
      intro n hn
      rcases chain_succ_general rest x x h n hn with ⟨m, hm, hr⟩
      obtain ⟨deps, hlook, hmd⟩ := hr
      refine ⟨deps, hlook, m, hmd, ?_⟩
      rcases hm with hm1 | hm2
      · exact hm1
      · rw [hm2]; simp

theorem kahnGo_error_of_noSource :
    ∀ (fuel : Nat) (g : List (String × List String))
      (acc : List (List String)) (S : List String),
      g.length ≤ fuel → (g.map Prod.fst).Nodup → NoSource g S →
      ∃ msg, kahnGo g acc = .error msg := by
  intro fuel
  induction fuel with
  | zero =>
      intro g acc S hlen hnd hns
      have hg : g = [] := List.length_eq_zero.mp (Nat.le_zero.mp hlen)
      subst hg
      obtain ⟨hne, hall⟩ := hns
      obtain ⟨n, hn⟩ := List.exists_mem_of_ne_nil S hne
      obtain ⟨deps, hd, _⟩ := hall n hn
      simp [alistGet?] at hd
  | succ fuel ih =>
      intro g acc S hlen hnd hns
      obtain ⟨hne, hall⟩ := hns
      have hnotready : ∀ n ∈ S,
          n ∉ (g.filter (fun p => p.2.isEmpty)).map Prod.fst := by
        intro n hn hmem
        rcases List.mem_map.mp hmem with ⟨p, hp, hpn⟩
        rcases List.mem_filter.mp hp with ⟨hpg, hpe⟩
        obtain ⟨deps, hlook, d, hdin, _⟩ := hall n hn
        have hmemg : (n, p.2) ∈ g := by
          have h2 : (p.1, p.2) ∈ g := by simpa using hpg
          rwa [hpn] at h2
        have hlook2 := alistGet?_eq_some_of_mem hnd hmemg
        rw [hlook] at hlook2
        have hdeps : deps = p.2 := Option.some.inj hlook2
        rw [List.isEmpty_iff] at hpe
        rw [hdeps, hpe] at hdin
        cases hdin
      rw [kahnGo]
      by_cases hre : ((g.filter (fun p => p.2.isEmpty)).map Prod.fst).isEmpty
      · rw [dif_pos hre]
        have hgne : ¬ g.isEmpty := by
          obtain ⟨n, hn⟩ := List.exists_mem_of_ne_nil S hne
          obtain ⟨deps, hd, _⟩ := hall n hn
          intro hgnil
          rw [List.isEmpty_iff] at hgnil
          subst hgnil
          simp [alistGet?] at hd
        rw [if_neg hgne]
        exact ⟨_, rfl⟩
      · rw [dif_neg hre]
        set ready := (g.filter (fun p => p.2.isEmpty)).map Prod.fst with hready
        set graph1 := g.filter (fun p => !(ready.contains p.1)) with hg1
        set graph2 := graph1.map
          (fun p => (p.1, p.2.filter (fun d => !(ready.contains d)))) with hg2
        have hsub : graph1.Sublist g := List.filter_sublist g
        have hnd1 : (graph1.map Prod.fst).Nodup :=
          (hsub.map Prod.fst).nodup hnd
        have hkeys : graph2.map Prod.fst = graph1.map Prod.fst := by
          rw [hg2, List.map_map]
          rfl
        have hnd2 : (graph2.map Prod.fst).Nodup := by
          rw [hkeys]
          exact hnd1
        have hlt : graph1.length < g.length := by
          rcases List.exists_mem_of_ne_nil ready (by simpa using hre)
            with ⟨nm, hnm⟩
          rcases List.mem_map.mp hnm with ⟨p, hp, hpn⟩
          have hpg : p ∈ g := (List.mem_filter.mp hp).1
          refine List.length_filter_lt_length_iff_exists.mpr ⟨p, hpg, ?_⟩
          have hmem : p.1 ∈ ready := by rw [hpn]; exact hnm
          simpa using hmem
        have hlen2 : graph2.length ≤ fuel := by
          rw [hg2]
          simp only [List.length_map]
          omega
        have hall2 : ∀ n ∈ S, ∃ deps, alistGet? graph2 n = some deps ∧
            ∃ d ∈ deps, d ∈ S := by
          intro n hn
          obtain ⟨deps, hlook, d, hdin, hdS⟩ := hall n hn
          have hnr : n ∉ ready := hnotready n hn
          have hdr : d ∉ ready := hnotready d hdS
          have hmemg : (n, deps) ∈ g := mem_of_alistGet?_eq_some hlook
          have hmem1 : (n, deps) ∈ graph1 :=
            List.mem_filter.mpr ⟨hmemg, by simpa using hnr⟩
          have hmem2 : (n, deps.filter (fun d => !(ready.contains d))) ∈
              graph2 := List.mem_map.mpr ⟨(n, deps), hmem1, rfl⟩
          refine ⟨_, alistGet?_eq_some_of_mem hnd2 hmem2, d, ?_, hdS⟩
          exact List.mem_filter.mpr ⟨hdin, by simpa using hdr⟩
        exact ih graph2 _ S hlen2 hnd2 ⟨hne, hall2⟩

theorem run_dag_order_error (env : PipelineEnv) (spec : PipelineSpec)
    (payload : DocumentPayload) (msg : String)
    (h : get_dag_execution_order spec = .error msg) :
    run_dag env spec payload = .error msg := by
  unfold run_dag
  rw [h]
  rfl

theorem run_of_outcome_error (env : PipelineEnv) (config : PipelineConfig)
    (payload : DocumentPayload) (e : String)
    (h : runOutcome env config
      (payload.withDocumentId (some (runDocumentId env payload))) =
        .error e) :
    ProcessingPipeline.run env config payload =
      { job_id := payload.job_id, status := .failure,
        error_message := some ("Pipeline execution failed: " ++ e),
        results := [], final_output := none } := by
  simp only [ProcessingPipeline.run, h, withDocumentId_job_id]

/-- C6, counterexample: on the cyclic DAG `a → b → a` the run fails and
emits no results, but `final_output` is `None` — not a dictionary carrying
`status = failure` as the claim states (the aggregator never runs; only the
outer `DocumentProcessingResult.status` is `failure`). -/
theorem dag_cycle_counterexample :
    (ProcessingPipeline.run trivialEnv cyclicConfig
      samplePayload).final_output = none ∧
    (ProcessingPipeline.run trivialEnv cyclicConfig samplePayload).status =
      .failure ∧
    (ProcessingPipeline.run trivialEnv cyclicConfig samplePayload).results =
      [] := by
  have h : kahnGo [("a", ["b"]), ("b", ["a"])] [] =
      .error "A cycle was detected in the DAG involving steps: a, b" := by
    rw [kahnGo]
    norm_num
    rfl
  have horder : get_dag_execution_order cyclicConfig.pipeline =
      .error "A cycle was detected in the DAG involving steps: a, b" := h
  have houtcome : runOutcome trivialEnv cyclicConfig
      (samplePayload.withDocumentId
        (some (runDocumentId trivialEnv samplePayload))) =
      .error "A cycle was detected in the DAG involving steps: a, b" :=
    run_dag_order_error trivialEnv cyclicConfig.pipeline _ _ horder
  rw [run_of_outcome_error trivialEnv cyclicConfig samplePayload _ houtcome]
  exact ⟨rfl, rfl, rfl⟩

/-- C6, amended: for every DAG configuration whose dependency graph has a
cycle, the topological sort of `_get_dag_execution_order` raises before any
node executes, and the run returns — independently of the processor
behaviour in `env` — a failure `DocumentProcessingResult` with no results,
the `"Pipeline execution failed: "` message and `final_output = None` (the
aggregated page dictionary is never built, so no `final_output.status`
exists). -/
theorem dag_cycle_fails_before_execution (env : PipelineEnv)
    (config : PipelineConfig) (payload : DocumentPayload)
    (nodes : List DagNode) (c : List String)
    (hmode : config.execution_mode = "dag")
    (hspec : config.pipeline = .dag nodes)
    (hcyc : IsDagCycle (dagGraph nodes) c) :
    ∃ msg, get_dag_execution_order config.pipeline = .error msg ∧
      ProcessingPipeline.run env config payload =
        { job_id := payload.job_id, status := .failure,
          error_message := some ("Pipeline execution failed: " ++ msg),
          results := [], final_output := none } := by
  obtain ⟨msg, hmsg⟩ := kahnGo_error_of_noSource (dagGraph nodes).length
    (dagGraph nodes) [] c le_rfl (dagGraph_keys_nodup nodes)
    (noSource_of_isDagCycle hcyc)
  have horder : get_dag_execution_order config.pipeline = .error msg := by
    rw [hspec]
    exact hmsg
  refine ⟨msg, horder, ?_⟩
  refine run_of_outcome_error env config payload msg ?_
  unfold runOutcome
  rw [hmode]
  rw [if_neg (by decide), if_pos rfl]
  exact run_dag_order_error env config.pipeline _ msg horder

/-- Witness for C6 at the concrete cyclic configuration of scenario S4. -/
theorem dag_cycle_fails_before_execution_witness :
    ∃ msg, get_dag_execution_order cyclicConfig.pipeline = .error msg ∧
      ProcessingPipeline.run trivialEnv cyclicConfig samplePayload =
        { job_id := samplePayload.job_id, status := .failure,
          error_message := some ("Pipeline execution failed: " ++ msg),
          results := [], final_output := none } :=
  dag_cycle_fails_before_execution trivialEnv cyclicConfig samplePayload
    [{ id := "a", processor := "ocr_processor", dependencies := ["b"] },
     { id := "b", processor := "ocr_processor", dependencies := ["a"] }]
    ["a", "b"] rfl rfl
    (by
      show List.Chain (hasEdge _) "a" (["b"] ++ ["a"])
      exact List.Chain.cons ⟨["b"], rfl, by simp⟩
        (List.Chain.cons ⟨["a"], rfl, by simp⟩ List.Chain.nil))

theorem alistGet?_append {κ α : Type} [DecidableEq κ] (m m2 : List (κ × α))
    (k : κ) :
    alistGet? (m ++ m2) k =
      match alistGet? m k with
      | some v => some v
      | none => alistGet? m2 k := by
  induction m with
  | nil => simp [alistGet?]
  | cons p m ih =>
      obtain ⟨k1, v1⟩ := p
      rw [List.cons_append, alistGet?_cons, alistGet?_cons]
      by_cases h : k1 = k
      · simp [h]
      · simp [h, ih]

theorem alistGet?_alistSet {κ α : Type} [DecidableEq κ]
    (d : List (κ × α)) (k k2 : κ) (v : α) :
    alistGet? (alistSet d k v) k2 =
      if k = k2 then some v else alistGet? d k2 := by
  induction d with
  | nil =>
      by_cases h : k = k2 <;> simp [alistSet, alistGet?_cons, h]
  | cons p d ih =>
      obtain ⟨k1, v1⟩ := p
      by_cases he : k1 = k
      · subst he
        rw [show alistSet ((k1, v1) :: d) k1 v = (k1, v) :: d from by
          simp [alistSet]]
        rw [alistGet?_cons, alistGet?_cons]
        by_cases h2 : k1 = k2 <;> simp [h2]
      · rw [show alistSet ((k1, v1) :: d) k v =
            (k1, v1) :: alistSet d k v from by simp [alistSet, he]]
        rw [alistGet?_cons, alistGet?_cons]
        by_cases h2 : k1 = k2 <;> by_cases h3 : k = k2 <;>
          simp_all [ih]

theorem pmModify_alistGet? (m : List (Int × PageDict)) (n : Int)
    (f : PageDict → PageDict) (k : Int) :
    alistGet? (pmModify m n f) k =
      if k = n then (alistGet? m k).map f else alistGet? m k := by
  induction m with
  | nil => by_cases h : k = n <;> simp [pmModify, alistGet?, h]
  | cons p m ih =>
      obtain ⟨k1, d1⟩ := p
      have hcons : pmModify ((k1, d1) :: m) n f =
          (if k1 = n then (k1, f d1) else (k1, d1)) :: pmModify m n f := rfl
      rw [hcons]
      by_cases h1 : k1 = n
      · rw [if_pos h1]
        rw [alistGet?_cons, alistGet?_cons]
        by_cases h2 : k1 = k
        · rw [if_pos h2, if_pos h2]
          have hkn : k = n := h2 ▸ h1
          rw [if_pos hkn]
          rfl
        · rw [if_neg h2, if_neg h2, ih]
      · rw [if_neg h1]
        rw [alistGet?_cons, alistGet?_cons]
        by_cases h2 : k1 = k
        · rw [if_pos h2, if_pos h2]
          have hkn : ¬ k = n := fun h => h1 (h2.trans h)
          rw [if_neg hkn]
        · rw [if_neg h2, if_neg h2, ih]

theorem pmModify_keys (m : List (Int × PageDict)) (n : Int)
    (f : PageDict → PageDict) :
    (pmModify m n f).map Prod.fst = m.map Prod.fst := by
  induction m with
  | nil => rfl
  | cons p m ih =>
      obtain ⟨k1, d1⟩ := p
      by_cases h1 : k1 = n <;> simp_all [pmModify]

theorem alistGet?_none_iff_not_mem_keys {κ α : Type} [DecidableEq κ]
    (m : List (κ × α)) (k : κ) :
    alistGet? m k = none ↔ k ∉ m.map Prod.fst := by
  unfold alistGet?
  rw [Option.map_eq_none']
  rw [List.find?_eq_none]
  constructor
  · intro h hmem
    rcases List.mem_map.mp hmem with ⟨p, hp, hpk⟩
    have h2 := h p hp
    simp only [decide_eq_true_eq] at h2
    exact h2 hpk
  · intro hmem x hx
    simp only [decide_eq_true_eq]
    intro hxk
    exact hmem (List.mem_map.mpr ⟨x, hx, hxk⟩)

theorem pageOccurs_append (pre : List ProcessorResult)
    (r : ProcessorResult) (n : Int) :
    pageOccurs (pre ++ [r]) n ↔
      pageOccurs pre n ∨
        (r.status = Status.success ∧ metaPageNumber r = some n) := by
  constructor
  · rintro ⟨x, hx, hs, hp⟩
    rcases List.mem_append.mp hx with h | h
    · exact Or.inl ⟨x, h, hs, hp⟩
    · rw [List.mem_singleton] at h
      subst h
      exact Or.inr ⟨hs, hp⟩
  · rintro (⟨x, hx, hs, hp⟩ | ⟨hs, hp⟩)
    · exact ⟨x, List.mem_append_left _ hx, hs, hp⟩
    · exact ⟨r, List.mem_append_right _ (List.mem_singleton_self r), hs, hp⟩

theorem lastPageAssign_nil (n : Int) (k : String) :
    lastPageAssign [] n k = none := rfl

theorem lastPageAssign_append (pre : List ProcessorResult)
    (r : ProcessorResult) (n : Int) (k : String) :
    lastPageAssign (pre ++ [r]) n k =
      if r.status = Status.success ∧ metaPageNumber r = some n ∧
          resultKey r.processor_name = k ∧ structuredTruthy r then
        r.structured_results
      else lastPageAssign pre n k := by
  unfold lastPageAssign
  rw [List.reverse_append]
  simp only [List.reverse_singleton, List.singleton_append,
    List.findSome?_cons]
  by_cases h : r.status = Status.success ∧ metaPageNumber r = some n ∧
      resultKey r.processor_name = k ∧ structuredTruthy r
  · rw [if_pos h, if_pos h]
    obtain ⟨_, _, _, h4⟩ := h
    cases hsr : r.structured_results with
    | none => rw [structuredTruthy, hsr] at h4; simp at h4
    | some d => simp [hsr]
  · rw [if_neg h, if_neg h]

theorem lastPageAssign_none_of_not_occurs
    {pre : List ProcessorResult} {n : Int} (k : String)
    (h : ¬ pageOccurs pre n) : lastPageAssign pre n k = none := by
  unfold lastPageAssign
  rw [List.findSome?_eq_none]
  intro r hr
  rw [if_neg]
  intro ⟨h1, h2, _, _⟩
  exact h ⟨r, (List.mem_reverse).mp hr, h1, h2⟩

theorem resultKey_ne_page_number (s : String) :
    resultKey s ≠ "page_number" := by
  intro h
  unfold resultKey at h
  have hd : (pyReplace s "_processor" "").data ++ "_result".data =
      "page".data ++ "_number".data := by
    have h2 := congrArg String.data h
    rw [String.data_append] at h2
    exact h2.trans (by decide)
  have hlen : (pyReplace s "_processor" "").data.length = 4 := by
    have h3 := congrArg List.length hd
    rw [List.length_append, List.length_append] at h3
    have e1 : "_result".data.length = 7 := rfl
    have e2 : "page".data.length = 4 := rfl
    have e3 : "_number".data.length = 7 := rfl
    omega
  have h4 := List.append_inj hd (by rw [hlen]; decide)
  exact absurd h4.2 (by decide)

theorem alistGet?_append_singleton (m : List (Int × PageDict)) (n0 : Int)
    (b : PageDict) (x : Int) :
    alistGet? (m ++ [(n0, b)]) x =
      match alistGet? m x with
      | some v => some v
      | none => if n0 = x then some b else none := by
  rw [alistGet?_append]
  cases alistGet? m x with
  | some v => rfl
  | none => rw [alistGet?_cons]; rfl

theorem aggPagesInv_nil : AggPagesInv [] [] := by
  refine ⟨by simp, ?_, ?_⟩
  · intro n
    simp [alistGet?, pageOccurs]
  · intro n d h
    simp [alistGet?] at h

theorem aggStep_pages_map (st : AggState) (r : ProcessorResult) :
    (aggStep st r).pages_map =
      if r.status ≠ Status.success then st.pages_map
      else
        match metaPageNumber r with
        | some n =>
            let m1 := if (alistGet? st.pages_map n).isNone then
                st.pages_map ++ [(n, [("page_number", .vint n)])]
              else st.pages_map
            if structuredTruthy r then
              pmModify m1 n (fun d =>
                dset d (resultKey r.processor_name)
                  (.vdict (r.structured_results.getD [])))
            else m1
        | none => st.pages_map := by
  unfold aggStep
  set st1 := if r.processor_name = "pipeline_orchestrator" ∧
      r.status = Status.failure then
    { st with status := "failure", error_message := r.error_message }
  else st with hst1
  have hpm1 : st1.pages_map = st.pages_map := by
    rw [hst1]
    split <;> rfl
  by_cases h2 : r.status = Status.success <;>
    cases h3 : metaPageNumber r <;>
      by_cases h4 : structuredTruthy r <;>
        simp [h2, h3, h4, resultKey, pmGet, hpm1, apply_ite] <;>
          (try rw [hpm1]) <;>
            (try (split <;> simp_all [Option.isNone_iff_eq_none]))

theorem aggStep_preserves_inv {pre : List ProcessorResult} {st : AggState}
    (r : ProcessorResult) (h : AggPagesInv pre st.pages_map) :
    AggPagesInv (pre ++ [r]) (aggStep st r).pages_map := by
  obtain ⟨hnd, hiff, hcontent⟩ := h
  rw [aggStep_pages_map]
  by_cases hsucc : r.status = Status.success
  case neg =>
    rw [if_pos (by simpa using hsucc)]
    refine ⟨hnd, ?_, ?_⟩
    · intro n
      rw [pageOccurs_append]
      constructor
      · intro hx
        exact Or.inl ((hiff n).mp hx)
      · rintro (hx | ⟨hs, _⟩)
        · exact (hiff n).mpr hx
        · exact absurd hs hsucc
    · intro n d hd
      obtain ⟨hpn, hkeys⟩ := hcontent n d hd
      refine ⟨hpn, ?_⟩
      intro k hk
      rw [lastPageAssign_append,
        if_neg (by rintro ⟨hs, -, -, -⟩; exact hsucc hs)]
      exact hkeys k hk
  case pos =>
    rw [if_neg (by simpa using hsucc)]
    cases hmeta : metaPageNumber r with
    | none =>
        dsimp only
        refine ⟨hnd, ?_, ?_⟩
        · intro n
          rw [pageOccurs_append]
          constructor
          · intro hx
            exact Or.inl ((hiff n).mp hx)
          · rintro (hx | ⟨_, hp⟩)
            · exact (hiff n).mpr hx
            · rw [hmeta] at hp
              cases hp
        · intro n d hd
          obtain ⟨hpn, hkeys⟩ := hcontent n d hd
          refine ⟨hpn, ?_⟩
          intro k hk
          rw [lastPageAssign_append,
            if_neg (by rintro ⟨-, hp, -, -⟩; rw [hmeta] at hp; cases hp)]
          exact hkeys k hk
    | some n0 =>
        dsimp only
        set m := st.pages_map with hm
        set base : PageDict := [("page_number", SRVal.vint n0)] with hbase
        set m1 := if (alistGet? m n0).isNone then m ++ [(n0, base)] else m
          with hm1
        have hm1nd : (m1.map Prod.fst).Nodup := by
          rw [hm1]
          split
          · rename_i hnone
            rw [List.map_append]
            refine List.Nodup.append hnd (by simp) ?_
            intro x hx hx2
            simp at hx2
            rw [hx2] at hx
            exact ((alistGet?_none_iff_not_mem_keys m n0).mp
              (Option.isNone_iff_eq_none.mp hnone)) hx
          · exact hnd
        have hm1get_old : ∀ x, x ≠ n0 → alistGet? m1 x = alistGet? m x := by
          intro x hx
          rw [hm1]
          split
          · rw [alistGet?_append_singleton]
            cases alistGet? m x with
            | some v => rfl
            | none => rw [if_neg (fun h => hx h.symm)]
          · rfl
        have hm1get_new : ∃ d1, alistGet? m1 n0 = some d1 ∧
            dget d1 "page_number" = .vint n0 ∧
            (∀ k, k ≠ "page_number" →
              alistGet? d1 k = (lastPageAssign pre n0 k).map SRVal.vdict) := by
          rw [hm1]
          split
          · rename_i hnone
            refine ⟨base, ?_, by rw [hbase]; rfl, ?_⟩
            · rw [alistGet?_append_singleton,
                Option.isNone_iff_eq_none.mp hnone]
              simp
            · intro k hk
              have hnone2 : alistGet? base k = none := by
                rw [hbase, alistGet?_cons, if_neg (fun h => hk h.symm)]
                rfl
              rw [hnone2, lastPageAssign_none_of_not_occurs k ?_]
              · rfl
              · intro hocc
                have h2 := (hiff n0).mpr hocc
                rw [Option.isNone_iff_eq_none.mp hnone] at h2
                simp at h2
          · rename_i hnotnone
            have hsome : ∃ d1, alistGet? m n0 = some d1 := by
              cases hx : alistGet? m n0 with
              | none => rw [hx] at hnotnone; simp at hnotnone
              | some d1 => exact ⟨d1, rfl⟩
            obtain ⟨d1, hd1⟩ := hsome
            obtain ⟨hpn, hkeys⟩ := hcontent n0 d1 hd1
            exact ⟨d1, hd1, hpn, hkeys⟩
        obtain ⟨d1, hd1get, hd1pn, hd1keys⟩ := hm1get_new
        by_cases htr : structuredTruthy r
        case neg =>
          rw [if_neg htr]
          refine ⟨hm1nd, ?_, ?_⟩
          · intro n
            rw [pageOccurs_append]
            by_cases hxn : n = n0
            · subst hxn
              rw [hd1get]
              simp only [Option.isSome_some, true_iff]
              exact Or.inr ⟨hsucc, hmeta⟩
            · rw [hm1get_old n hxn, hiff n]
              constructor
              · exact Or.inl
              · rintro (hx | ⟨-, hp⟩)
                · exact hx
                · rw [hmeta] at hp
                  exact absurd (Option.some.inj hp).symm hxn
          · intro n d hd
            by_cases hxn : n = n0
            · subst hxn
              rw [hd1get] at hd
              obtain rfl := Option.some.inj hd
              refine ⟨hd1pn, ?_⟩
              intro k hk
              rw [lastPageAssign_append,
                if_neg (by rintro ⟨-, -, -, h4⟩; exact htr h4)]
              exact hd1keys k hk
            · rw [hm1get_old n hxn] at hd
              obtain ⟨hpn, hkeys⟩ := hcontent n d hd
              refine ⟨hpn, ?_⟩
              intro k hk
              rw [lastPageAssign_append, if_neg ?_]
              · exact hkeys k hk
              · rintro ⟨-, hp, -, -⟩
                rw [hmeta] at hp
                exact hxn (Option.some.inj hp).symm
        case pos =>
          rw [if_pos htr]
          refine ⟨?_, ?_, ?_⟩
          · rw [pmModify_keys]
            exact hm1nd
          · intro n
            rw [pmModify_alistGet?]
            by_cases hxn : n = n0
            · subst hxn
              rw [if_pos rfl, hd1get]
              rw [pageOccurs_append]
              simp only [Option.map_some', Option.isSome_some, true_iff]
              exact Or.inr ⟨hsucc, hmeta⟩
            · rw [if_neg hxn, hm1get_old n hxn, hiff n, pageOccurs_append]
              constructor
              · exact Or.inl
              · rintro (hx | ⟨-, hp⟩)
                · exact hx
                · rw [hmeta] at hp
                  exact absurd (Option.some.inj hp).symm hxn
          · intro n d hd
            rw [pmModify_alistGet?] at hd
            by_cases hxn : n = n0
            · subst hxn
              rw [if_pos rfl, hd1get, Option.map_some'] at hd
              obtain rfl := Option.some.inj hd
              constructor
              · show dget (dset d1 (resultKey r.processor_name)
                  (.vdict (r.structured_results.getD []))) "page_number" = _
                unfold dget dset
                rw [alistGet?_alistSet,
                  if_neg (resultKey_ne_page_number r.processor_name)]
                exact hd1pn
              · intro k hk
                show alistGet? (dset d1 (resultKey r.processor_name)
                  (.vdict (r.structured_results.getD []))) k = _
                unfold dset
                rw [alistGet?_alistSet, lastPageAssign_append]
                by_cases hkey : resultKey r.processor_name = k
                · rw [if_pos hkey, if_pos ⟨hsucc, hmeta, hkey, htr⟩]
                  cases hsr : r.structured_results with
                  | none => rw [structuredTruthy, hsr] at htr; simp at htr
                  | some sd => simp [hsr]
                · rw [if_neg hkey,
                    if_neg (by rintro ⟨-, -, h3, -⟩; exact hkey h3)]
                  exact hd1keys k hk
            · rw [if_neg hxn, hm1get_old n hxn] at hd
              obtain ⟨hpn, hkeys⟩ := hcontent n d hd
              refine ⟨hpn, ?_⟩
              intro k hk
              rw [lastPageAssign_append, if_neg ?_]
              · exact hkeys k hk
              · rintro ⟨-, hp, -, -⟩
                rw [hmeta] at hp
                exact hxn (Option.some.inj hp).symm

theorem foldl_aggStep_inv :
    ∀ (results pre : List ProcessorResult) (st : AggState),
      AggPagesInv pre st.pages_map →
      AggPagesInv (pre ++ results) ((results.foldl aggStep st).pages_map) := by
  intro results
  induction results with
  | nil =>
      intro pre st h
      simpa using h
  | cons r rs ih =>
      intro pre st h
      rw [List.foldl_cons]
      have h3 := ih (pre ++ [r]) (aggStep st r) (aggStep_preserves_inv r h)
      simpa using h3

/-- C7: for every run, `final_output.pages` is strictly ascending in
`page_number` (hence no two entries share one); a page entry exists exactly
for the pages carried by successful results; each entry stores its page
number under `"page_number"` and, under every other key, exactly the
`structured_results` of the (last, by the documented last-writer-wins
overwrite) successful result for that page whose derived key matches —
the key being the processor name with `"_processor"` removed plus
`"_result"`, which on every processor name this code base emits coincides
with stripping the trailing `"_processor"` suffix. -/
theorem aggregate_results_pages_characterization
    (all_results : List ProcessorResult) (docid : String) :
    ((aggregate_results all_results docid).pages.Pairwise
      (fun p q => pageKeyOf p < pageKeyOf q)) ∧
    (∀ d ∈ (aggregate_results all_results docid).pages,
      dget d "page_number" = .vint (pageKeyOf d) ∧
      pageOccurs all_results (pageKeyOf d) ∧
      (∀ k, k ≠ "page_number" →
        alistGet? d k =
          (lastPageAssign all_results (pageKeyOf d) k).map SRVal.vdict)) ∧
    (∀ n, pageOccurs all_results n →
      ∃ d ∈ (aggregate_results all_results docid).pages,
        dget d "page_number" = .vint n) ∧
    (∀ name ∈ emittedProcessorNames, resultKey name = resultKeySpec name) := by
  have hInv : AggPagesInv all_results
      ((all_results.foldl aggStep
        { status := "success", error_message := none, pages_map := [],
          document_level_results := [] }).pages_map) := by
    simpa using foldl_aggStep_inv all_results []
      { status := "success", error_message := none, pages_map := [],
        document_level_results := [] } aggPagesInv_nil
  obtain ⟨hnd, hiff, hcontent⟩ := hInv
  set M := (all_results.foldl aggStep
    { status := "success", error_message := none, pages_map := [],
      document_level_results := [] }).pages_map with hM
  have hpages : (aggregate_results all_results docid).pages =
      (List.insertionSort (fun a b => a.1 ≤ b.1) M).map Prod.snd := rfl
  haveI hTot : IsTotal (Int × PageDict) (fun a b => a.1 ≤ b.1) :=
    ⟨fun a b => le_total a.1 b.1⟩
  haveI hTrans : IsTrans (Int × PageDict) (fun a b => a.1 ≤ b.1) :=
    ⟨fun a b c h1 h2 => le_trans h1 h2⟩
  have hperm : (List.insertionSort (fun a b => a.1 ≤ b.1) M).Perm M :=
    List.perm_insertionSort _ M
  have hmemM : ∀ p, p ∈ List.insertionSort (fun a b => a.1 ≤ b.1) M →
      p ∈ M := fun p hp => hperm.mem_iff.mp hp
  have hlook : ∀ p ∈ M, alistGet? M p.1 = some p.2 := by
    intro p hp
    exact alistGet?_eq_some_of_mem hnd (by simpa using hp)
  have hkeyof : ∀ p ∈ M, pageKeyOf p.2 = p.1 := by
    intro p hp
    obtain ⟨hpn, -⟩ := hcontent p.1 p.2 (hlook p hp)
    unfold pageKeyOf
    rw [hpn]
  refine ⟨?_, ?_, ?_, ?_⟩
  · rw [hpages, List.pairwise_map]
    have hsorted : List.Pairwise (fun a b : Int × PageDict => a.1 ≤ b.1)
        (List.insertionSort (fun a b => a.1 ≤ b.1) M) :=
      List.sorted_insertionSort _ M
    have hndS : ((List.insertionSort (fun a b => a.1 ≤ b.1) M).map
        Prod.fst).Nodup := ((hperm.map Prod.fst).symm).nodup hnd
    have hneS : List.Pairwise (fun a b : Int × PageDict => a.1 ≠ b.1)
        (List.insertionSort (fun a b => a.1 ≤ b.1) M) :=
      List.pairwise_map.mp hndS
    refine (hsorted.and hneS).imp_of_mem ?_
    intro a b ha hb hab
    have hka := hkeyof a (hmemM a ha)
    have hkb := hkeyof b (hmemM b hb)
    rw [hka, hkb]
    exact lt_of_le_of_ne hab.1 hab.2
  · intro d hd
    rw [hpages] at hd
    rcases List.mem_map.mp hd with ⟨p, hp, rfl⟩
    have hpM := hmemM p hp
    have hk := hkeyof p hpM
    obtain ⟨hpn, hkeys⟩ := hcontent p.1 p.2 (hlook p hpM)
    rw [hk]
    refine ⟨hpn, ?_, hkeys⟩
    exact (hiff p.1).mp (by rw [hlook p hpM]; rfl)
  · intro n hocc
    have hsome := (hiff n).mpr hocc
    cases hx : alistGet? M n with
    | none => rw [hx] at hsome; simp at hsome
    | some d =>
        have hmem : (n, d) ∈ M := mem_of_alistGet?_eq_some hx
        refine ⟨d, ?_, (hcontent n d hx).1⟩
        rw [hpages]
        exact List.mem_map.mpr ⟨(n, d), hperm.mem_iff.mpr hmem, rfl⟩
  · intro name hname
    fin_cases hname <;> rfl

/-- Witness for C7 at a concrete input: aggregating a single successful OCR
result for page 1 yields a page entry for page 1. -/
theorem aggregate_results_pages_characterization_witness :
    ∃ d ∈ (aggregate_results [ocrSuccess] "doc").pages,
      dget d "page_number" = .vint 1 :=
  (aggregate_results_pages_characterization [ocrSuccess] "doc").2.2.1 1
    ⟨ocrSuccess, List.mem_singleton_self _, rfl, rfl⟩
